import Mathlib

/-!
# Gateway connection lifecycle and pacemaker

A shallow embedding of `gateway/pacemaker.go` and `gateway/gateway.go`.

* Machine integers (`int64`, `time.Duration`) are `Int` values, and every
  arithmetic result is reduced with `wrap64`.
* Clock readings (`time.Now().UnixNano()`), the results of calls into the
  websocket layer and of the handshake helpers are supplied by explicit
  scripts, so that every function is an executable state-passing function.
* Calls that can block or crash are given an explicit `Outcome`.
-/

namespace Arikawa

/-! ## Errors -/

/-- Go error values: a plain message (`errors.New`) or a wrapped cause
(`errors.Wrap(cause, msg)`). -/
inductive Err where
  | msg (s : String)
  | wrap (cause : Err) (s : String)
  deriving DecidableEq, Repr

/-- The error of `pacemaker.go:12`: `ErrDead = errors.New("no heartbeat replied")`. -/
def ErrDead : Err := Err.msg "no heartbeat replied"

/-! ## Pacemaker (`pacemaker.go`) -/

/-- Two's complement reduction of an integer to the `int64` range. -/
def wrap64 (x : Int) : Int :=
  (x + 9223372036854775808) % 18446744073709551616 - 9223372036854775808

/-- Membership in the `int64` range. -/
def isInt64 (x : Int) : Prop :=
  -9223372036854775808 ≤ x ∧ x < 9223372036854775808

instance (x : Int) : Decidable (isInt64 x) := by
  unfold isInt64; infer_instance

/-- The struct `Pacemaker`: `Heartrate` (a `time.Duration`, nanoseconds),
`SentBeat` and `EchoBeat` (of type `Time = int64`, UnixNano), and whether the
`stop` channel is non-nil. The callback `Pace` is supplied by the run script,
see `Beat`. -/
structure Pacemaker where
  Heartrate : Int
  SentBeat : Int
  EchoBeat : Int
  stop : Bool
  deriving DecidableEq, Repr

/-- The method `Echo` (`pacemaker.go:32`): stores the clock reading `now`
into `EchoBeat`. -/
def Pacemaker.Echo (p : Pacemaker) (now : Int) : Pacemaker :=
  { p with EchoBeat := now }

/-- The method `Dead` (`pacemaker.go:39`):
`if echo == 0 || sent == 0 { return false }; return sent-echo > int64(p.Heartrate)*2`
with `int64` arithmetic. -/
def Pacemaker.Dead (p : Pacemaker) : Bool :=
  let echo := p.EchoBeat
  let sent := p.SentBeat
  if echo = 0 ∨ sent = 0 then false
  else decide (wrap64 (sent - echo) > wrap64 (p.Heartrate * 2))

/-- The method `Stop` (`pacemaker.go:60`): a stop signal is sent exactly when
`p.stop` is non-nil; the result tells whether one was sent. -/
def Pacemaker.Stop (p : Pacemaker) : Bool :=
  p.stop

/-- Which case of the `select` at `pacemaker.go:92` fires. -/
inductive Wake where
  | stop
  | tick
  deriving DecidableEq, Repr

/-- One iteration of the duty cycle as seen from outside: the `Echo()` calls
made by the dispatcher since the previous `Dead()` check and before this
one (their clock readings, in order), the result of `p.Pace()`, the clock
reading stored into `SentBeat`, and the `select` case that fires. -/
structure Beat where
  echoes : List Int
  pace : Option Err
  now : Int
  wake : Wake
  deriving DecidableEq, Repr

/-- The way `start` ends: one of its three return sites, the panic of
`time.NewTicker` on a non-positive interval, or `pending` when the script
ended while the loop was still waiting. -/
inductive Exit where
  | paceErr (e : Err)
  | dead
  | stopped
  | panicked
  | pending
  deriving DecidableEq, Repr

/-- The Go value returned at each return site (`none` when nothing is
returned: a panic, or a loop still running). -/
def Exit.err : Exit → Option (Option Err)
  | Exit.paceErr e => some (some e)
  | Exit.dead => some (some ErrDead)
  | Exit.stopped => some none
  | Exit.panicked => none
  | Exit.pending => none

/-- Actions of the duty cycle, in program order. -/
inductive Step where
  | echo (t : Int)
  | pace (r : Option Err)
  | sent (t : Int)
  | dead (b : Bool)
  | recvStop
  | recvTick
  deriving DecidableEq, Repr

/-- Echo stamps stored by the dispatcher: each `Echo()` overwrites `EchoBeat`. -/
def Pacemaker.echoAll (p : Pacemaker) : List Int → Pacemaker
  | [] => p
  | t :: ts => (p.Echo t).echoAll ts

/-- The `for` loop of `start` (`pacemaker.go:76-100`). -/
def Pacemaker.loop (p : Pacemaker) : List Beat → Pacemaker × List Step × Exit
  | [] => (p, [], Exit.pending)
  | b :: rest =>
    let p1 := p.echoAll b.echoes
    match b.pace with
    | some e => (p1, [Step.pace (some e)], Exit.paceErr e)
    | none =>
      let p2 := { p1 with SentBeat := b.now }
      if p2.Dead then
        (p2, [Step.pace none, Step.sent b.now, Step.dead true], Exit.dead)
      else
        match b.wake with
        | Wake.stop =>
          (p2, [Step.pace none, Step.sent b.now, Step.dead false, Step.recvStop],
            Exit.stopped)
        | Wake.tick =>
          let r := p2.loop rest
          (r.1, [Step.pace none, Step.sent b.now, Step.dead false, Step.recvTick] ++ r.2.1,
            r.2.2)

/-- The pacemaker at the `Dead()` check of beat `b`: the dispatcher echoes
stored, then `SentBeat` stamped. -/
def Pacemaker.stamped (p : Pacemaker) (b : Beat) : Pacemaker :=
  { p.echoAll b.echoes with SentBeat := b.now }

/-- The actions of an iteration that ends by receiving a tick. -/
def Beat.round (b : Beat) : List Step :=
  [Step.pace none, Step.sent b.now, Step.dead false, Step.recvTick]

/-- The pacemaker after the iterations `done`, each of which stored its
echoes and stamped its send. -/
def Pacemaker.after (p : Pacemaker) : List Beat → Pacemaker
  | [] => p
  | b :: rest => (p.stamped b).after rest

/-- Every iteration of the script goes round: `Pace` succeeds, the `Dead()`
check made on the state it meets is false, and the `select` receives a tick. -/
def Pacemaker.ticks (p : Pacemaker) : List Beat → Prop
  | [] => True
  | b :: rest =>
    b.pace = none ∧ (p.stamped b).Dead = false ∧ b.wake = Wake.tick ∧ (p.stamped b).ticks rest

instance decTicks : (p : Pacemaker) → (beats : List Beat) → Decidable (p.ticks beats)
  | _, [] => isTrue trivial
  | p, b :: rest =>
    have : Decidable ((p.stamped b).ticks rest) := decTicks (p.stamped b) rest
    inferInstanceAs
      (Decidable (b.pace = none ∧ (p.stamped b).Dead = false ∧ b.wake = Wake.tick ∧
        (p.stamped b).ticks rest))

/-- The method `start` (`pacemaker.go:69`): `time.NewTicker(p.Heartrate)`,
which panics on a non-positive interval, then one `Echo()` stamped `t0`, then
the loop. -/
def Pacemaker.start (p : Pacemaker) (t0 : Int) (beats : List Beat) :
    Pacemaker × List Step × Exit :=
  if p.Heartrate ≤ 0 then (p, [], Exit.panicked)
  else
    let r := (p.Echo t0).loop beats
    (r.1, Step.echo t0 :: r.2.1, r.2.2)

/-! ## Gateway (`gateway.go`) -/

/-- Result of a call that may not return: `blocked` waits forever, `panicked`
is a runtime panic, `pending` means the script ended while the call was still
running. -/
inductive Outcome (α : Type) where
  | returned (a : α)
  | blocked
  | panicked
  | pending
  deriving DecidableEq, Repr

/-- Transport of a non-returning outcome to another result type. -/
def Outcome.stuck {α β : Type} : Outcome α → Outcome β
  | Outcome.blocked => Outcome.blocked
  | Outcome.panicked => Outcome.panicked
  | _ => Outcome.pending

/-- Calls made by the gateway on its hooks, its transport, its handshake
helpers and its background tasks, recorded in program order. -/
inductive Call where
  | AfterClose (e : Option Err)
  | ErrorLog (e : Err)
  | Dial
  | WSClose
  | Listen
  | AssertHello
  | Identify
  | Resume
  | WaitForEvent
  | StartAsync (heartrate : Int)
  | goHandleWS
  | Stop
  | Wait
  deriving DecidableEq, Repr

/-- Result of `AssertEvent(g, <-ch, HelloOP, &hello)`: an error, or the
decoded `hello.HeartbeatInterval.Duration()`. -/
inductive Hello where
  | bad (e : Err)
  | ok (heartrate : Int)
  deriving DecidableEq, Repr

/-- Modelled from the spec: the handshake helpers called by `start`, which
live outside `gateway.go` (`AssertEvent`, `g.Identify()`, `g.Resume()`,
`WaitForEvent`), each given by its result. `WaitForEvent` routes every frame
it consumes through `HandleEvent`, where READY stores the new session id and
Invalid-session clears it, whether or not the wait then succeeds: the field
`session` is the value these frames leave in `SessionID` (`some ""` when
cleared, `none` when no frame touched it) and `confirm` is the result of the
wait. The reconnect that the dispatcher may trigger runs outside `start` and
is not part of it. -/
structure Handshake where
  hello : Hello
  identify : Option Err
  resume : Option Err
  session : Option String
  confirm : Option Err
  deriving DecidableEq, Repr

/-- The fields of `Gateway` that the lifecycle reads and writes: `SessionID`,
`Pacemaker` (nil or a pacemaker), `paceDeath` (is the channel non-nil) and
`waitGroup` (nil, or the counter of the `sync.WaitGroup`); and the state of
the channel behind `paceDeath`: `undelivered` is the error that the pacemaker
goroutine, its `start` having returned, is blocked sending on it
(`pacemaker.go:111`), if any. -/
structure Gateway where
  SessionID : String
  paceDeath : Bool
  waitGroup : Option Nat
  Pacemaker : Option Pacemaker
  undelivered : Option Err
  deriving DecidableEq, Repr

/-- The constructor `NewCustomGateway` (`gateway.go:164`): no session, no
pacemaker, `paceDeath` and `waitGroup` left nil. -/
def NewCustomGateway : Gateway :=
  { SessionID := "", paceDeath := false, waitGroup := none, Pacemaker := none,
    undelivered := none }

/-- The call `(*sync.WaitGroup).Done()` on the field `g.waitGroup`: `none` is a
panic (nil pointer, or negative counter). -/
def Gateway.wgDone (g : Gateway) : Option Gateway :=
  match g.waitGroup with
  | some (n + 1) => some { g with waitGroup := some n }
  | _ => none

/-- One outcome of the `select` in `eventLoop`: `g.paceDeath` delivers a
value, or a frame arrives and `HandleEvent(g, ev)` returns `handled`. -/
inductive LoopEv where
  | death (e : Option Err)
  | frame (handled : Option Err)
  deriving DecidableEq, Repr

/-- The `for { select }` of `eventLoop` (`gateway.go:368-388`). -/
def Gateway.selectLoop (g : Gateway) :
    List LoopEv → Gateway × List Call × Outcome (Option Err)
  | [] => (g, [], Outcome.pending)
  | LoopEv.death none :: _ =>
    ({ g with paceDeath := false }, [], Outcome.returned none)
  | LoopEv.death (some err) :: _ =>
    ({ g with paceDeath := false }, [],
      Outcome.returned (some (Err.wrap err "Pacemaker died, reconnecting")))
  | LoopEv.frame none :: rest => g.selectLoop rest
  | LoopEv.frame (some err) :: rest =>
    let r := g.selectLoop rest
    (r.1, Call.ErrorLog (Err.wrap err "WS handler error") :: r.2.1, r.2.2)

/-- The method `eventLoop` (`gateway.go:365`): `ch := g.WS.Listen()`, then
the loop. -/
def Gateway.eventLoop (g : Gateway) (evs : List LoopEv) :
    Gateway × List Call × Outcome (Option Err) :=
  let r := g.selectLoop evs
  (r.1, Call.Listen :: r.2.1, r.2.2)

/-- The tail of the goroutine of `StartAsync` (`pacemaker.go:113-117`), run once
its send on `death` has been received: `p.stop = nil; wg.Done()`. The
WaitGroup it was given is the one in `g.waitGroup`. -/
def Gateway.asyncExit (g : Gateway) : Option Gateway :=
  ({ g with
      Pacemaker := g.Pacemaker.map
        (fun (p : Arikawa.Pacemaker) => { p with stop := false }),
      undelivered := none }).wgDone

/-- What follows the return of the dispatch loop `r`: the receive from
`paceDeath` that ended it releases the pacemaker goroutine, whose tail
`asyncExit` runs; then `handleWS` calls `g.waitGroup.Done()`
(`gateway.go:355`). -/
def Gateway.finish (r : Gateway × List Call × Outcome (Option Err)) :
    Gateway × List Call × Outcome (Option Err) :=
  match r.2.2 with
  | Outcome.returned err =>
    match r.1.asyncExit with
    | none => (r.1, r.2.1, Outcome.panicked)
    | some g1 =>
      match g1.wgDone with
      | none => (g1, r.2.1, Outcome.panicked)
      | some g2 => (g2, r.2.1, Outcome.returned err)
  | o => (r.1, r.2.1, o)

/-- The first two statements of `handleWS` (`gateway.go:354-355`):
`err := g.eventLoop(); g.waitGroup.Done()`. -/
def Gateway.loopExit (g : Gateway) (evs : List LoopEv) :
    Gateway × List Call × Outcome (Option Err) :=
  Gateway.finish (g.eventLoop evs)

/-- The duty cycle of the pacemaker returns `e` (a failed `Pace`, or
`ErrDead`) while the dispatch loop is not receiving from `paceDeath`: the
goroutine of `StartAsync` blocks in `p.death <- p.start()`, and `p.stop` is
still non-nil. -/
def Gateway.pacerExits (g : Gateway) (e : Err) : Gateway :=
  { g with undelivered := some e }

/-- The call `g.Pacemaker.Stop()` (`pacemaker.go:60`) together with what the
stop signal sets off. When `p.stop` is non-nil, `Stop` sends on it. If the
duty cycle has already returned (`undelivered` is set) nothing receives on
`p.stop` any more and the send blocks for ever. Otherwise the `select` of the
duty cycle receives it, `start` returns nil, the nil is sent on `death`, the
dispatch loop already running receives it and `handleWS` finishes. -/
def Gateway.stopPacemaker (g : Gateway) : Gateway × List Call × Outcome Unit :=
  match g.Pacemaker with
  | none => (g, [], Outcome.panicked)
  | some p =>
    if p.Stop then
      match g.undelivered with
      | some _ => (g, [Call.Stop], Outcome.blocked)
      | none =>
        let r := Gateway.finish (g.selectLoop [LoopEv.death none])
        match r.2.2 with
        | Outcome.returned _ => (r.1, Call.Stop :: r.2.1, Outcome.returned ())
        | o => (r.1, Call.Stop :: r.2.1, o.stuck)
    else (g, [], Outcome.returned ())

/-- The method `Close` (`gateway.go:178`); `wsClose` is the result of
`g.WS.Close()`. -/
def Gateway.Close (g : Gateway) (wsClose : Option Err) :
    Gateway × List Call × Outcome (Option Err) :=
  if g.waitGroup = none ∧ g.paceDeath = false then
    (g, [Call.AfterClose none], Outcome.returned none)
  else
    let s := if g.paceDeath then g.stopPacemaker else (g, [], Outcome.returned ())
    match s.2.2 with
    | Outcome.returned _ =>
      match s.1.waitGroup with
      | none => (s.1, s.2.1 ++ [Call.Wait], Outcome.panicked)
      | some (_ + 1) => (s.1, s.2.1 ++ [Call.Wait], Outcome.blocked)
      | some 0 =>
        ({ s.1 with waitGroup := none },
          s.2.1 ++ [Call.Wait, Call.WSClose, Call.AfterClose wsClose],
          Outcome.returned wsClose)
    | o => (s.1, s.2.1, o.stuck)

/-- The method `start` (`gateway.go:287`). `StartAsync` makes the channels of
the new pacemaker, so nothing is undelivered on the new `paceDeath`. The
duty cycle itself (`Pacemaker.start`) runs in the goroutine that `StartAsync`
spawns, after `start` has made its calls. -/
def Gateway.start (g : Gateway) (h : Handshake) : Gateway × List Call × Option Err :=
  let g1 := { g with waitGroup := some 0 }
  match h.hello with
  | Hello.bad e => (g1, [Call.Listen, Call.AssertHello], some (Err.wrap e "Error at Hello"))
  | Hello.ok heartrate =>
    let req : List Call × Option Err :=
      if g1.SessionID = "" then
        ([Call.Identify], h.identify.map (fun e => Err.wrap e "Failed to identify"))
      else
        ([Call.Resume], h.resume.map (fun e => Err.wrap e "Failed to resume"))
    match req.2 with
    | some err => (g1, [Call.Listen, Call.AssertHello] ++ req.1, some err)
    | none =>
      let g2 := { g1 with SessionID := h.session.getD g1.SessionID }
      match h.confirm with
      | some e =>
        (g2, [Call.Listen, Call.AssertHello] ++ req.1 ++ [Call.WaitForEvent],
          some (Err.wrap e "First error"))
      | none =>
        let g3 := { g2 with
          Pacemaker :=
            some { Heartrate := heartrate, SentBeat := 0, EchoBeat := 0, stop := true },
          paceDeath := true,
          undelivered := none,
          waitGroup := g2.waitGroup.map (fun n => n + 1) }
        let g4 := { g3 with waitGroup := g3.waitGroup.map (fun n => n + 1) }
        (g4, [Call.Listen, Call.AssertHello] ++ req.1 ++
          [Call.WaitForEvent, Call.StartAsync heartrate, Call.goHandleWS], none)

/-- The method `Start` (`gateway.go:264`); `wsClose` is the result of
`g.WS.Close()` should the attempt unwind. -/
def Gateway.Start (g : Gateway) (h : Handshake) (wsClose : Option Err) :
    Gateway × List Call × Outcome (Option Err) :=
  let r := g.start h
  match r.2.2 with
  | some err =>
    let c := r.1.Close wsClose
    match c.2.2 with
    | Outcome.returned _ => (c.1, r.2.1 ++ c.2.1, Outcome.returned (some err))
    | o => (c.1, r.2.1 ++ c.2.1, o)
  | none => (r.1, r.2.1, Outcome.returned none)

/-- What one call of `Open` meets: the result of `g.WS.Dial(ctx)`, the
handshake, and the result of `g.WS.Close()` should `Start` unwind. -/
structure Attempt where
  dial : Option Err
  hs : Handshake
  wsClose : Option Err
  deriving DecidableEq, Repr

/-- The method `Open` (`gateway.go:241`). -/
def Gateway.Open (g : Gateway) (a : Attempt) : Gateway × List Call × Outcome (Option Err) :=
  match a.dial with
  | some err => (g, [Call.Dial], Outcome.returned (some (Err.wrap err "Failed to reconnect")))
  | none =>
    let r := g.Start a.hs a.wsClose
    (r.1, Call.Dial :: r.2.1, r.2.2)

/-- The `for` loop of `Reconnect` (`gateway.go:222-236`). -/
def Gateway.redial (g : Gateway) : List Attempt → Gateway × List Call × Outcome Unit
  | [] => (g, [], Outcome.pending)
  | a :: rest =>
    let r := g.Open a
    match r.2.2 with
    | Outcome.returned (some err) =>
      let k := r.1.redial rest
      (k.1, r.2.1 ++ Call.ErrorLog (Err.wrap err "Failed to open gateway") :: k.2.1, k.2.2)
    | Outcome.returned none => (r.1, r.2.1, Outcome.returned ())
    | o => (r.1, r.2.1, o.stuck)

/-- The method `Reconnect` (`gateway.go:215`): `g.Close()` with its result
dropped, then the dial loop. -/
def Gateway.Reconnect (g : Gateway) (wsClose : Option Err) (attempts : List Attempt) :
    Gateway × List Call × Outcome Unit :=
  let c := g.Close wsClose
  match c.2.2 with
  | Outcome.returned _ =>
    let k := c.1.redial attempts
    (k.1, c.2.1 ++ k.2.1, k.2.2)
  | o => (c.1, c.2.1, o.stuck)

/-- The method `handleWS` (`gateway.go:353`). -/
def Gateway.handleWS (g : Gateway) (evs : List LoopEv) (wsClose : Option Err)
    (attempts : List Attempt) : Gateway × List Call × Outcome Unit :=
  let r := g.loopExit evs
  match r.2.2 with
  | Outcome.returned (some err) =>
    let k := r.1.Reconnect wsClose attempts
    (k.1, r.2.1 ++ Call.ErrorLog err :: k.2.1, k.2.2)
  | Outcome.returned none => (r.1, r.2.1, Outcome.returned ())
  | o => (r.1, r.2.1, o.stuck)

/-! ## Runs, scripts and reachable states -/

/-- Stamps of a run in the order in which they are stored: echo stamps and
send stamps. -/
inductive Ev where
  | echo (t : Int)
  | send (t : Int)
  deriving DecidableEq, Repr

/-- The stamps of a run of `start`: the initial `Echo()`, then beat by beat
the dispatcher echoes and the send, then the echoes stored after the last
`Dead()` check. -/
def runEvents (t0 : Int) (beats : List Beat) (after : List Int) : List Ev :=
  Ev.echo t0 :: (beats.flatMap (fun b => b.echoes.map Ev.echo ++ [Ev.send b.now]))
    ++ after.map Ev.echo

/-- The liveness premise in the words of the specification: every send stamped
`s` is followed by an echo stamped within `[s, s + 2H]`. -/
def echoedWithin (H : Int) : List Ev → Bool
  | [] => true
  | Ev.echo _ :: rest => echoedWithin H rest
  | Ev.send s :: rest =>
    rest.any (fun ev =>
      match ev with
      | Ev.echo e => decide (s ≤ e ∧ e ≤ s + 2 * H)
      | Ev.send _ => false)
    && echoedWithin H rest

/-- The echo stamp a `Dead()` check reads: the last one stored, or the one
already in place. -/
def echoSeen : Int → List Int → Int
  | e, [] => e
  | _, t :: ts => echoSeen t ts

/-- Every send of the script is stamped at most `2 * H` after the echo stamp
that the `Dead()` check following it reads; `e` is the echo stamp in place. -/
def Timely (H : Int) : Int → List Beat → Prop
  | _, [] => True
  | e, b :: rest => b.now - echoSeen e b.echoes ≤ 2 * H ∧ Timely H (echoSeen e b.echoes) rest

instance decTimely (H : Int) : (e : Int) → (beats : List Beat) → Decidable (Timely H e beats)
  | _, [] => isTrue trivial
  | e, b :: rest =>
    have : Decidable (Timely H (echoSeen e b.echoes) rest) := decTimely H _ rest
    inferInstanceAs
      (Decidable (b.now - echoSeen e b.echoes ≤ 2 * H ∧ Timely H (echoSeen e b.echoes) rest))

/-- Clock readings of a script lie between the epoch and the end of the
`int64` range. -/
def StampsOk (beats : List Beat) : Prop :=
  ∀ b ∈ beats, (0 ≤ b.now ∧ b.now < 9223372036854775808) ∧
    ∀ t ∈ b.echoes, 0 ≤ t ∧ t < 9223372036854775808

instance (beats : List Beat) : Decidable (StampsOk beats) := by
  unfold StampsOk; infer_instance

/-- Recognises the invocations of `Pace`. -/
def Step.isPace : Step → Bool
  | Step.pace _ => true
  | _ => false

/-- A state on which the subtraction of `Dead()` leaves the `int64` range. -/
def wrapState : Pacemaker :=
  { Heartrate := 1, SentBeat := 9223372036854775807, EchoBeat := -1, stop := false }

/-- A pacemaker with a heartrate of five seconds. -/
def fiveSec : Pacemaker :=
  { Heartrate := 5000000000, SentBeat := 0, EchoBeat := 0, stop := true }

/-- A run with ticks every five seconds in which the echo of the second
heartbeat takes eight seconds: sends at 1.0002 s, 6.001 s and 11.002 s, the
echo of the first at 1.0005 s, that of the second (stored after the third
check) at 14 s. -/
def lateEcho : List Beat :=
  [ { echoes := [], pace := none, now := 1000200000, wake := Wake.tick },
    { echoes := [1000500000], pace := none, now := 6001000000, wake := Wake.tick },
    { echoes := [], pace := none, now := 11002000000, wake := Wake.tick } ]

/-- A run in which every echo is stored before the next heartbeat, ended by a
stop signal. -/
def promptEcho : List Beat :=
  [ { echoes := [], pace := none, now := 1000200000, wake := Wake.tick },
    { echoes := [1000500000], pace := none, now := 6001000000, wake := Wake.tick },
    { echoes := [6500000000], pace := none, now := 11002000000, wake := Wake.stop } ]

/-- A run without any echo: heartbeats one millisecond after each tick. -/
def silent : List Beat :=
  [ { echoes := [], pace := none, now := 1001000000, wake := Wake.tick },
    { echoes := [], pace := none, now := 6001000000, wake := Wake.tick } ]

/-- The heartbeat stamped a little more than ten seconds after the start. -/
def silentLast : Beat :=
  { echoes := [], pace := none, now := 11001000000, wake := Wake.tick }

/-- Recognises the calls of the `AfterClose` hook. -/
def Call.isAfterClose : Call → Bool
  | Call.AfterClose _ => true
  | _ => false

/-- The argument of an `ErrorLog` call. -/
def Call.logged : Call → Option Err
  | Call.ErrorLog e => some e
  | _ => none

/-- The argument of an `AfterClose` call. -/
def Call.afterClose : Call → Option (Option Err)
  | Call.AfterClose e => some e
  | _ => none

/-- The call the dispatch loop makes for a frame: `ErrorLog` when handling it
failed, none otherwise. -/
def LoopEv.logged : LoopEv → Option Call
  | LoopEv.frame (some e) => some (Call.ErrorLog (Err.wrap e "WS handler error"))
  | _ => none

/-- The gateway once the dispatch loop and the pacemaker of a live connection
have ended: `paceDeath` nil, stop channel nil, `waitGroup` drained. -/
def Gateway.ended (g : Gateway) : Gateway :=
  { g with
      paceDeath := false,
      waitGroup := some 0,
      Pacemaker := g.Pacemaker.map
        (fun (p : Arikawa.Pacemaker) => { p with stop := false }),
      undelivered := none }

/-- Recognises frame events. -/
def LoopEv.isFrame : LoopEv → Bool
  | LoopEv.frame _ => true
  | LoopEv.death _ => false

/-- The result of `Open` on a closed gateway whose session id is `sid`. -/
def openResult (sid : String) (a : Attempt) : Option Err :=
  match (({ NewCustomGateway with SessionID := sid }).Open a).2.2 with
  | Outcome.returned r => r
  | _ => none

/-- The session id that `Open` leaves on a closed gateway whose session id is
`sid`. -/
def openSession (sid : String) (a : Attempt) : String :=
  (({ NewCustomGateway with SessionID := sid }).Open a).1.SessionID

/-- The attempts of `fails` fail one after the other, each with the error
paired with it and each met with the session id its predecessors left, and
the attempt `ok` then succeeds; `sid` is the session id at the first
attempt. -/
def failsThen (sid : String) : List (Attempt × Err) → Attempt → Prop
  | [], ok => openResult sid ok = none
  | x :: rest, ok => openResult sid x.1 = some x.2 ∧ failsThen (openSession sid x.1) rest ok

instance decFailsThen : (sid : String) → (fails : List (Attempt × Err)) → (ok : Attempt) →
    Decidable (failsThen sid fails ok)
  | sid, [], ok => inferInstanceAs (Decidable (openResult sid ok = none))
  | sid, x :: rest, ok =>
    have : Decidable (failsThen (openSession sid x.1) rest ok) :=
      decFailsThen (openSession sid x.1) rest ok
    inferInstanceAs
      (Decidable (openResult sid x.1 = some x.2 ∧ failsThen (openSession sid x.1) rest ok))

/-- The value the first receive from `paceDeath` in a script delivers. -/
def firstDeath : List LoopEv → Option (Option Err)
  | [] => none
  | LoopEv.death d :: _ => some d
  | LoopEv.frame _ :: rest => firstDeath rest

/-- States of the gateway reached from `NewCustomGateway` by calls that
return: `Open` and `Start` on a gateway marked closed (`waitGroup` nil, as
`Reconnect` arranges by closing first), `Close` and `Reconnect` anywhere; and
by what the background tasks of a live connection do: the duty cycle of the
pacemaker returns an error that the dispatch loop has not yet received
(`exiting`), the dispatch loop ends on a pacemaker death before (`died`) or
with (`handled`) the reconnect made by `handleWS`. An undelivered error is
what the next receive from `paceDeath` delivers. -/
inductive Reachable : Gateway → Prop
  | init : Reachable NewCustomGateway
  | opened (g g1 : Gateway) (a : Attempt) (l : List Call) (r : Option Err) :
      Reachable g → g.waitGroup = none → g.Open a = (g1, l, Outcome.returned r) →
      Reachable g1
  | started (g g1 : Gateway) (h : Handshake) (c : Option Err) (l : List Call)
      (r : Option Err) :
      Reachable g → g.waitGroup = none → g.Start h c = (g1, l, Outcome.returned r) →
      Reachable g1
  | closed (g g1 : Gateway) (c : Option Err) (l : List Call) (r : Option Err) :
      Reachable g → g.Close c = (g1, l, Outcome.returned r) → Reachable g1
  | reconnected (g g1 : Gateway) (c : Option Err) (attempts : List Attempt)
      (l : List Call) :
      Reachable g → g.Reconnect c attempts = (g1, l, Outcome.returned ()) → Reachable g1
  | exiting (g : Gateway) (e : Err) :
      Reachable g → g.paceDeath = true → g.undelivered = none →
      Reachable (g.pacerExits e)
  | died (g g1 : Gateway) (evs : List LoopEv) (l : List Call) (err : Err) :
      Reachable g → g.paceDeath = true →
      (∀ e, g.undelivered = some e → firstDeath evs = some (some e)) →
      g.loopExit evs = (g1, l, Outcome.returned (some err)) → Reachable g1
  | handled (g g1 : Gateway) (evs : List LoopEv) (c : Option Err)
      (attempts : List Attempt) (l : List Call) :
      Reachable g → g.paceDeath = true →
      (∀ e, g.undelivered = some e → firstDeath evs = some (some e)) →
      g.handleWS evs c attempts = (g1, l, Outcome.returned ()) → Reachable g1

/-- Nothing runs: `paceDeath` nil, stop channel nil, `waitGroup` nil or drained. -/
def Gateway.Idle (g : Gateway) : Prop :=
  g.paceDeath = false ∧ (∀ p, g.Pacemaker = some p → p.stop = false) ∧
    (g.waitGroup = none ∨ g.waitGroup = some 0)

/-- A connection is live: `paceDeath` and the stop channel are set and both
background tasks are counted by `waitGroup`. -/
def Gateway.Live (g : Gateway) : Prop :=
  g.paceDeath = true ∧ (∃ p, g.Pacemaker = some p ∧ p.stop = true) ∧
    g.waitGroup = some 2

/-- The shape of every reachable state. -/
def Gateway.Inv (g : Gateway) : Prop :=
  g.Idle ∨ g.Live

/-- The handshake fails before the wait for READY/RESUMED: the first frame is
not Hello, or the Identify or Resume request fails; `err` is the error
`start` returns. -/
def FailsEarly (g : Gateway) (h : Handshake) (err : Err) : Prop :=
  (∃ e, h.hello = Hello.bad e ∧ err = Err.wrap e "Error at Hello") ∨
  (∃ rate e, h.hello = Hello.ok rate ∧ g.SessionID = "" ∧ h.identify = some e ∧
    err = Err.wrap e "Failed to identify") ∨
  (∃ rate e, h.hello = Hello.ok rate ∧ g.SessionID ≠ "" ∧ h.resume = some e ∧
    err = Err.wrap e "Failed to resume")

/-- The handshake fails in the wait for READY/RESUMED. -/
def FailsWaiting (g : Gateway) (h : Handshake) (err : Err) : Prop :=
  ∃ rate e, h.hello = Hello.ok rate ∧
    (if g.SessionID = "" then h.identify else h.resume) = none ∧ h.confirm = some e ∧
    err = Err.wrap e "First error"

/-- The ways a handshake can fail, with the error `start` returns for each. -/
def FailsWith (g : Gateway) (h : Handshake) (err : Err) : Prop :=
  FailsEarly g h err ∨ FailsWaiting g h err

/-- A handshake that succeeds on a fresh session: Hello with a heartbeat
interval of five seconds, then READY carrying the session id `abc`. -/
def goodHandshake : Handshake :=
  { hello := Hello.ok 5000000000, identify := none, resume := none, confirm := none,
    session := some "abc" }

/-- A handshake whose first frame is not Hello. -/
def badHandshake : Handshake :=
  { hello := Hello.bad (Err.msg "unexpected opcode"), identify := none, resume := none,
    confirm := none, session := none }

/-- A resume that the server answers with Invalid-session before closing the
stream: the dispatcher clears the session id and the wait fails. -/
def invalidSession : Handshake :=
  { hello := Hello.ok 5000000000, identify := none, resume := none,
    session := some "",
    confirm := some (Err.msg "Event not found and event channel is closed.") }

/-- An attempt that dials and authenticates. -/
def goodAttempt : Attempt :=
  { dial := none, hs := goodHandshake, wsClose := none }

/-- An attempt whose dial fails. -/
def badDial : Attempt :=
  { dial := some (Err.msg "dial timeout"), hs := goodHandshake, wsClose := none }

/-- An attempt whose handshake fails. -/
def badHello : Attempt :=
  { dial := none, hs := badHandshake, wsClose := some (Err.msg "close failed") }

/-- An attempt whose resume is answered with Invalid-session. -/
def badResume : Attempt :=
  { dial := none, hs := invalidSession, wsClose := none }

/-- Three failing attempts, each with the error `Open` returns for it: a
failed dial, a first frame that is not Hello, and a resume answered with
Invalid-session, which clears the session id for the attempts after it. -/
def threeFailures : List (Attempt × Err) :=
  [ (badDial, Err.wrap (Err.msg "dial timeout") "Failed to reconnect"),
    (badHello, Err.wrap (Err.msg "unexpected opcode") "Error at Hello"),
    (badResume,
      Err.wrap (Err.msg "Event not found and event channel is closed.") "First error") ]

/-- The gateway after a first successful `Open`. -/
def liveGateway : Gateway :=
  (NewCustomGateway.Open goodAttempt).1

/-- The live gateway once the duty cycle of its pacemaker has returned
`ErrDead` and before the dispatch loop has received it. -/
def dyingGateway : Gateway :=
  liveGateway.pacerExits ErrDead

/-- A closed gateway that holds the session id `abc` of an earlier
connection. -/
def closedGateway : Gateway :=
  (liveGateway.Close none).1

/-! # Theorems -/

/-! ## Pacemaker: arithmetic and the liveness verdict -/

theorem wrap64_of_isInt64 {x : Int} (h1 : -9223372036854775808 ≤ x)
    (h2 : x < 9223372036854775808) : wrap64 x = x := by
  unfold wrap64; omega

theorem echoAll_EchoBeat (ts : List Int) :
    ∀ p : Pacemaker, (p.echoAll ts).EchoBeat = echoSeen p.EchoBeat ts := by
  induction ts with
  | nil => intro p; rfl
  | cons t ts ih => intro p; simp [Pacemaker.echoAll, echoSeen, ih, Pacemaker.Echo]

theorem echoAll_Heartrate (ts : List Int) :
    ∀ p : Pacemaker, (p.echoAll ts).Heartrate = p.Heartrate := by
  induction ts with
  | nil => intro p; rfl
  | cons t ts ih => intro p; simp [Pacemaker.echoAll, ih, Pacemaker.Echo]

theorem echoAll_nil (p : Pacemaker) : p.echoAll [] = p := rfl

theorem echoSeen_range (ts : List Int) :
    ∀ e : Int, (0 ≤ e ∧ e < 9223372036854775808) →
      (∀ t ∈ ts, 0 ≤ t ∧ t < 9223372036854775808) →
      0 ≤ echoSeen e ts ∧ echoSeen e ts < 9223372036854775808 := by
  induction ts with
  | nil => intro e he _; simpa [echoSeen] using he
  | cons t ts ih =>
    intro e _ h
    simp only [echoSeen]
    exact ih t (h t (List.mem_cons_self _ _)) (fun u hu => h u (List.mem_cons_of_mem _ hu))

/-- The verdict of `Dead()` when neither the difference nor the doubled
heartrate leaves the `int64` range. -/
theorem Dead_eq_of_range (p : Pacemaker)
    (hH : 0 ≤ p.Heartrate ∧ p.Heartrate < 4611686018427387904)
    (hd : -9223372036854775808 ≤ p.SentBeat - p.EchoBeat ∧
      p.SentBeat - p.EchoBeat < 9223372036854775808) :
    p.Dead = true ↔
      p.SentBeat ≠ 0 ∧ p.EchoBeat ≠ 0 ∧ p.SentBeat - p.EchoBeat > 2 * p.Heartrate := by
  simp only [Pacemaker.Dead]
  rw [wrap64_of_isInt64 hd.1 hd.2,
    wrap64_of_isInt64 (x := p.Heartrate * 2) (by omega) (by omega)]
  by_cases h : p.EchoBeat = 0 ∨ p.SentBeat = 0
  · simp only [h, if_true]
    constructor
    · intro hf; cases hf
    · rintro ⟨h1, h2, _⟩
      rcases h with h | h
      · exact absurd h h2
      · exact absurd h h1
  · simp only [h, if_false, decide_eq_true_eq]
    push_neg at h
    constructor
    · intro hgt; exact ⟨h.2, h.1, by omega⟩
    · rintro ⟨_, _, hgt⟩; omega

/-- C1 (amended). Whenever `0 ≤ Heartrate < 2^62` and `SentBeat - EchoBeat`
fits in `int64` (as it does for all timestamps at or after the epoch),
`Dead()` is true exactly when both stamps are non-zero and
`SentBeat - EchoBeat > 2 * Heartrate`; and whenever `EchoBeat = 0`, `Dead()`
is false, whatever `SentBeat` and `Heartrate` are. -/
theorem Dead_iff (p : Pacemaker) :
    ((0 ≤ p.Heartrate ∧ p.Heartrate < 4611686018427387904) →
      (-9223372036854775808 ≤ p.SentBeat - p.EchoBeat ∧
        p.SentBeat - p.EchoBeat < 9223372036854775808) →
      (p.Dead = true ↔
        p.SentBeat ≠ 0 ∧ p.EchoBeat ≠ 0 ∧ p.SentBeat - p.EchoBeat > 2 * p.Heartrate)) ∧
    (p.EchoBeat = 0 → p.Dead = false) := by
  refine ⟨fun hH hd => Dead_eq_of_range p hH hd, fun h0 => ?_⟩
  unfold Pacemaker.Dead
  simp [h0]

/-- Witness for C1: the first half at a pacemaker whose last echo is eleven
seconds older than its last send, the second half at a pacemaker without an
echo stamp whose send stamp is set and whose heartrate is negative. -/
theorem Dead_iff_witness :
    (({ fiveSec with SentBeat := 13000000000, EchoBeat := 2000000000 } : Pacemaker).Dead = true ↔
      (13000000000 : Int) ≠ 0 ∧ (2000000000 : Int) ≠ 0 ∧
        (13000000000 : Int) - 2000000000 > 2 * 5000000000) ∧
    (({ fiveSec with SentBeat := 13000000000, Heartrate := -7 } : Pacemaker).Dead = false) :=
  ⟨(Dead_iff { fiveSec with SentBeat := 13000000000, EchoBeat := 2000000000 }).1
      (by decide) (by decide),
   (Dead_iff { fiveSec with SentBeat := 13000000000, Heartrate := -7 }).2 rfl⟩

/-- C1 (as stated) fails: with `SentBeat = 2^63 - 1` and `EchoBeat = -1` the
`int64` subtraction wraps to `-2^63`, so `Dead()` is false although both
stamps are non-zero and their difference `2^63` exceeds `2 * Heartrate`. -/
theorem Dead_iff_counterexample :
    isInt64 wrapState.SentBeat ∧ isInt64 wrapState.EchoBeat ∧
    0 ≤ wrapState.Heartrate ∧ wrapState.Heartrate < 4611686018427387904 ∧
    wrapState.Dead = false ∧
    (wrapState.SentBeat ≠ 0 ∧ wrapState.EchoBeat ≠ 0 ∧
      wrapState.SentBeat - wrapState.EchoBeat > 2 * wrapState.Heartrate) := by
  decide

/-! ## Pacemaker: the duty cycle -/

theorem loop_nil (p : Pacemaker) : p.loop [] = (p, [], Exit.pending) := rfl

theorem loop_paceErr (p : Pacemaker) (b : Beat) (rest : List Beat) (e : Err)
    (h : b.pace = some e) :
    p.loop (b :: rest) = (p.echoAll b.echoes, [Step.pace (some e)], Exit.paceErr e) := by
  simp [Pacemaker.loop, h]

theorem loop_dead (p : Pacemaker) (b : Beat) (rest : List Beat)
    (h : b.pace = none) (hd : (p.stamped b).Dead = true) :
    p.loop (b :: rest) =
      (p.stamped b, [Step.pace none, Step.sent b.now, Step.dead true], Exit.dead) := by
  simp only [Pacemaker.stamped] at hd
  simp [Pacemaker.loop, h, hd, Pacemaker.stamped]

theorem loop_stop (p : Pacemaker) (b : Beat) (rest : List Beat)
    (h : b.pace = none) (hd : (p.stamped b).Dead = false) (hw : b.wake = Wake.stop) :
    p.loop (b :: rest) =
      (p.stamped b, [Step.pace none, Step.sent b.now, Step.dead false, Step.recvStop],
        Exit.stopped) := by
  simp only [Pacemaker.stamped] at hd
  simp [Pacemaker.loop, h, hd, hw, Pacemaker.stamped]

theorem loop_tick (p : Pacemaker) (b : Beat) (rest : List Beat)
    (h : b.pace = none) (hd : (p.stamped b).Dead = false) (hw : b.wake = Wake.tick) :
    p.loop (b :: rest) =
      (((p.stamped b).loop rest).1, b.round ++ ((p.stamped b).loop rest).2.1,
        ((p.stamped b).loop rest).2.2) := by
  simp only [Pacemaker.stamped] at hd
  simp [Pacemaker.loop, h, hd, hw, Pacemaker.stamped, Beat.round]

/-- The four ways an iteration can go. -/
theorem loop_cases (p : Pacemaker) (b : Beat) :
    (∃ e, b.pace = some e) ∨
    (b.pace = none ∧ (p.stamped b).Dead = true) ∨
    (b.pace = none ∧ (p.stamped b).Dead = false ∧ b.wake = Wake.stop) ∨
    (b.pace = none ∧ (p.stamped b).Dead = false ∧ b.wake = Wake.tick) := by
  cases hp : b.pace with
  | some e => exact Or.inl ⟨e, rfl⟩
  | none =>
    cases hd : (p.stamped b).Dead with
    | true => exact Or.inr (Or.inl ⟨rfl, rfl⟩)
    | false =>
      cases hw : b.wake with
      | stop => exact Or.inr (Or.inr (Or.inl ⟨rfl, rfl, rfl⟩))
      | tick => exact Or.inr (Or.inr (Or.inr ⟨rfl, rfl, rfl⟩))

theorem stamped_Heartrate (p : Pacemaker) (b : Beat) :
    (p.stamped b).Heartrate = p.Heartrate := by
  simp [Pacemaker.stamped, echoAll_Heartrate]

theorem stamped_EchoBeat (p : Pacemaker) (b : Beat) :
    (p.stamped b).EchoBeat = echoSeen p.EchoBeat b.echoes := by
  simp [Pacemaker.stamped, echoAll_EchoBeat]

theorem stamped_SentBeat (p : Pacemaker) (b : Beat) : (p.stamped b).SentBeat = b.now := rfl

/-- A send stamped at most `2H` after the echo stamp in place is not dead. -/
theorem stamped_not_dead (p : Pacemaker) (b : Beat)
    (hH : 0 < p.Heartrate ∧ p.Heartrate < 4611686018427387904)
    (he : 0 ≤ echoSeen p.EchoBeat b.echoes ∧
      echoSeen p.EchoBeat b.echoes < 9223372036854775808)
    (hn : 0 ≤ b.now ∧ b.now < 9223372036854775808)
    (ht : b.now - echoSeen p.EchoBeat b.echoes ≤ 2 * p.Heartrate) :
    (p.stamped b).Dead = false := by
  have hiff := Dead_eq_of_range (p.stamped b)
    (by rw [stamped_Heartrate]; omega)
    (by rw [stamped_SentBeat, stamped_EchoBeat]; omega)
  rw [stamped_SentBeat, stamped_EchoBeat, stamped_Heartrate] at hiff
  cases hd : (p.stamped b).Dead with
  | false => rfl
  | true =>
    have := (hiff.mp hd).2.2
    omega

theorem loop_never_dead (beats : List Beat) :
    ∀ p : Pacemaker, (0 < p.Heartrate ∧ p.Heartrate < 4611686018427387904) →
      (0 ≤ p.EchoBeat ∧ p.EchoBeat < 9223372036854775808) →
      StampsOk beats → Timely p.Heartrate p.EchoBeat beats →
      Step.dead true ∉ (p.loop beats).2.1 ∧ (p.loop beats).2.2 ≠ Exit.dead := by
  induction beats with
  | nil => intro p _ _ _ _; simp [loop_nil]
  | cons b rest ih =>
    intro p hH he hs ht
    have hb := hs b (List.mem_cons_self _ _)
    have hseen := echoSeen_range b.echoes p.EchoBeat he hb.2
    have hnd : (p.stamped b).Dead = false := stamped_not_dead p b hH hseen hb.1 ht.1
    rcases loop_cases p b with ⟨e, hp⟩ | ⟨_, hd⟩ | ⟨hp, _, hw⟩ | ⟨hp, _, hw⟩
    · rw [loop_paceErr p b rest e hp]; simp
    · rw [hnd] at hd; cases hd
    · rw [loop_stop p b rest hp hnd hw]; simp
    · rw [loop_tick p b rest hp hnd hw]
      have hrec := ih (p.stamped b)
        (by rw [stamped_Heartrate]; exact hH)
        (by rw [stamped_EchoBeat]; exact hseen)
        (fun x hx => hs x (List.mem_cons_of_mem _ hx))
        (by rw [stamped_Heartrate, stamped_EchoBeat]; exact ht.2)
      refine ⟨?_, hrec.2⟩
      simp only [List.mem_append, not_or]
      exact ⟨by simp [Beat.round], hrec.1⟩

/-- With a positive heartrate the ticker is created and `start` is the echo
stamp followed by the loop. -/
theorem start_of_pos (p : Pacemaker) (t0 : Int) (beats : List Beat) (hH : 0 < p.Heartrate) :
    p.start t0 beats =
      (((p.Echo t0).loop beats).1, Step.echo t0 :: ((p.Echo t0).loop beats).2.1,
        ((p.Echo t0).loop beats).2.2) := by
  simp [Pacemaker.start, not_le.mpr hH]

/-- C2 (amended). For `0 < H < 2^62` and clock readings between the epoch and
the end of the `int64` range: if every send is stamped at most `2H` after the
echo stamp that its `Dead()` check reads (the last echo stored before the
check), then no `Dead()` check of the duty cycle is true and `start` does not
leave through `return ErrDead`. -/
theorem start_never_dead (p : Pacemaker) (t0 : Int) (beats : List Beat)
    (hH : 0 < p.Heartrate ∧ p.Heartrate < 4611686018427387904)
    (ht0 : 0 ≤ t0 ∧ t0 < 9223372036854775808)
    (hs : StampsOk beats) (ht : Timely p.Heartrate t0 beats) :
    Step.dead true ∉ (p.start t0 beats).2.1 ∧ (p.start t0 beats).2.2 ≠ Exit.dead := by
  have h := loop_never_dead beats (p.Echo t0) hH ht0 hs ht
  rw [start_of_pos p t0 beats hH.1]
  refine ⟨?_, h.2⟩
  simp only [List.mem_cons, not_or]
  exact ⟨by simp, h.1⟩

/-- Witness for C2: a run whose echoes are stored before the next heartbeat. -/
theorem start_never_dead_witness :
    Timely 5000000000 1000000000 promptEcho ∧
    Step.dead true ∉ (fiveSec.start 1000000000 promptEcho).2.1 ∧
    (fiveSec.start 1000000000 promptEcho).2.2 ≠ Exit.dead :=
  ⟨by decide,
   start_never_dead fiveSec 1000000000 promptEcho (by decide) (by decide) (by decide)
     (by decide)⟩

/-- C2 (as stated) fails: heartrate 5 s, sends stamped 1.0002 s, 6.001 s and
11.002 s, each followed by an echo stamped within `[s, s + 2H]` (at 1.0005 s,
14 s and 14 s), yet the `Dead()` check of the third send reads the echo of
1.0005 s, finds a difference above 10 s and `start` returns `ErrDead`. -/
theorem start_never_dead_counterexample :
    0 < fiveSec.Heartrate ∧
    echoedWithin fiveSec.Heartrate (runEvents 1000000000 lateEcho [14000000000]) = true ∧
    Step.dead true ∈ (fiveSec.start 1000000000 lateEcho).2.1 ∧
    (fiveSec.start 1000000000 lateEcho).2.2 = Exit.dead := by
  decide

theorem stamped_of_silent (p : Pacemaker) (b : Beat) (h : b.echoes = []) :
    p.stamped b = { p with SentBeat := b.now } := by
  simp [Pacemaker.stamped, h, Pacemaker.echoAll]

/-- A send stamped more than `2H` after a time `s` at or after the echo stamp
in place is dead. -/
theorem stamped_dead (p : Pacemaker) (s : Int) (b : Beat)
    (hH : 0 < p.Heartrate) (he : 0 < p.EchoBeat ∧ p.EchoBeat ≤ s)
    (hb : b.echoes = []) (hlate : s + 2 * p.Heartrate < b.now)
    (hmax : b.now < 9223372036854775808) :
    (p.stamped b).Dead = true := by
  have hiff := Dead_eq_of_range (p.stamped b)
    (by rw [stamped_Heartrate]; omega)
    (by rw [stamped_SentBeat, stamped_EchoBeat, hb]; simp only [echoSeen]; omega)
  rw [hiff, stamped_SentBeat, stamped_EchoBeat, stamped_Heartrate, hb]
  simp only [echoSeen]
  refine ⟨by omega, by omega, by omega⟩

theorem loop_silent_dead (pre : List Beat) (s : Int) (b : Beat) (rest : List Beat) :
    ∀ p : Pacemaker, 0 < p.Heartrate → (0 < p.EchoBeat ∧ p.EchoBeat ≤ s) →
      (∀ x ∈ pre, x.echoes = [] ∧ x.pace = none ∧ x.wake = Wake.tick) →
      (b.echoes = [] ∧ b.pace = none) → s + 2 * p.Heartrate < b.now →
      b.now < 9223372036854775808 →
      (p.loop (pre ++ b :: rest)).2.2 = Exit.dead := by
  induction pre with
  | nil =>
    intro p hH he _ hb hlate hmax
    rw [List.nil_append, loop_dead p b rest hb.2 (stamped_dead p s b hH he hb.1 hlate hmax)]
  | cons x pre ih =>
    intro p hH he hpre hb hlate hmax
    have hx := hpre x (List.mem_cons_self _ _)
    rw [List.cons_append]
    rcases loop_cases p x with ⟨e, hp⟩ | ⟨hp, hd⟩ | ⟨_, _, hw⟩ | ⟨hp, hd, hw⟩
    · rw [hx.2.1] at hp; cases hp
    · rw [loop_dead p x _ hp hd]
    · rw [hx.2.2] at hw; cases hw
    · rw [loop_tick p x _ hp hd hw]
      have hst := stamped_of_silent p x hx.1
      exact ih (p.stamped x) (by rw [hst]; exact hH) (by rw [hst]; exact he)
        (fun y hy => hpre y (List.mem_cons_of_mem _ hy)) hb (by rw [hst]; exact hlate) hmax

theorem loop_silent_exact (pre : List Beat) (b : Beat) (rest : List Beat) :
    ∀ p : Pacemaker, 0 < p.Heartrate → 0 < p.EchoBeat →
      (∀ x ∈ pre, x.echoes = [] ∧ x.pace = none ∧ x.wake = Wake.tick) →
      (b.echoes = [] ∧ b.pace = none) → p.EchoBeat + 2 * p.Heartrate < b.now →
      b.now < 9223372036854775808 →
      (∀ x ∈ pre, 0 ≤ x.now ∧ x.now ≤ p.EchoBeat + 2 * p.Heartrate) →
      p.loop (pre ++ b :: rest) =
        (p.stamped b,
          pre.flatMap Beat.round ++ [Step.pace none, Step.sent b.now, Step.dead true],
          Exit.dead) := by
  induction pre with
  | nil =>
    intro p hH he _ hb hlate hmax _
    rw [List.nil_append,
      loop_dead p b rest hb.2 (stamped_dead p p.EchoBeat b hH ⟨he, le_refl _⟩ hb.1 hlate hmax)]
    simp
  | cons x pre ih =>
    intro p hH he hpre hb hlate hmax hearly
    have hx := hpre x (List.mem_cons_self _ _)
    have hxn := hearly x (List.mem_cons_self _ _)
    have hst := stamped_of_silent p x hx.1
    have hnd : (p.stamped x).Dead = false :=
      stamped_not_dead p x ⟨hH, by omega⟩ (by rw [hx.1]; simp only [echoSeen]; omega)
        ⟨hxn.1, by omega⟩ (by rw [hx.1]; simp only [echoSeen]; omega)
    rw [List.cons_append, loop_tick p x _ hx.2.1 hnd hx.2.2]
    rw [ih (p.stamped x) (by rw [hst]; exact hH) (by rw [hst]; exact he)
      (fun y hy => hpre y (List.mem_cons_of_mem _ hy)) hb (by rw [hst]; exact hlate) hmax
      (fun y hy => by rw [hst]; exact hearly y (List.mem_cons_of_mem _ hy))]
    simp [hst, stamped_of_silent _ b hb.1, List.flatMap_cons]

/-- C3. For heartrate `H > 0`: let the echo stamp in place be positive and
no later than a time `s` (a heartbeat was sent at `s` and no echo has been
stored since), and let the following iterations store no echo, send without
error and wake on ticks. Then the `Dead()` check made after a send stamped
later than `s + 2H` returns true and the duty cycle leaves through
`return ErrDead`; when no earlier send was stamped more than `2H` after the
echo stamp, it does so exactly at that send. -/
theorem loop_dead_after_silence (p : Pacemaker) (s : Int) (pre : List Beat) (b : Beat)
    (rest : List Beat) (hH : 0 < p.Heartrate) (he : 0 < p.EchoBeat ∧ p.EchoBeat ≤ s)
    (hpre : ∀ x ∈ pre, x.echoes = [] ∧ x.pace = none ∧ x.wake = Wake.tick)
    (hb : b.echoes = [] ∧ b.pace = none) (hlate : s + 2 * p.Heartrate < b.now)
    (hmax : b.now < 9223372036854775808) :
    (p.stamped b).Dead = true ∧
    (p.loop (pre ++ b :: rest)).2.2 = Exit.dead ∧
    (p.loop (pre ++ b :: rest)).2.2.err = some (some ErrDead) ∧
    ((∀ x ∈ pre, 0 ≤ x.now ∧ x.now ≤ p.EchoBeat + 2 * p.Heartrate) →
      p.loop (pre ++ b :: rest) =
        (p.stamped b,
          pre.flatMap Beat.round ++ [Step.pace none, Step.sent b.now, Step.dead true],
          Exit.dead)) := by
  have hd := loop_silent_dead pre s b rest p hH he hpre hb hlate hmax
  refine ⟨stamped_dead p s b hH he hb.1 hlate hmax, hd, by rw [hd]; rfl, fun hearly => ?_⟩
  exact loop_silent_exact pre b rest p hH he.1 hpre hb (by omega) hmax hearly

/-- Witness for C3: heartrate 5 s, the initial echo stamped at 1 s and none
after it, heartbeats at 1.001 s, 6.001 s and 11.001 s. `ErrDead` is reported
at the third heartbeat, stamped between 10 s and 15 s after the start. -/
theorem loop_dead_after_silence_witness :
    (fiveSec.start 1000000000 (silent ++ silentLast :: [])).2.2 = Exit.dead ∧
    (fiveSec.start 1000000000 (silent ++ silentLast :: [])).1.SentBeat = 11001000000 ∧
    1000000000 + 10000000000 < silentLast.now ∧
    silentLast.now ≤ 1000000000 + 15000000000 :=
  have h := loop_dead_after_silence (fiveSec.Echo 1000000000) 1000000000 silent silentLast []
    (by decide) (by decide) (by decide) (by decide) (by decide) (by decide)
  ⟨h.2.1, congrArg (fun r => r.1.SentBeat) (h.2.2.2 (by decide)), by decide, by decide⟩

/-! ## Pacemaker: the single outcome of the duty cycle -/

/-- Iterations that go round are run one after the other. -/
theorem loop_append (done : List Beat) :
    ∀ (p : Pacemaker) (tail : List Beat), p.ticks done →
      p.loop (done ++ tail) =
        (((p.after done).loop tail).1, done.flatMap Beat.round ++ ((p.after done).loop tail).2.1,
          ((p.after done).loop tail).2.2) := by
  induction done with
  | nil => intro p tail _; simp [Pacemaker.after]
  | cons b done ih =>
    intro p tail ht
    obtain ⟨hp, hd, hw, hrest⟩ := ht
    rw [List.cons_append, loop_tick p b _ hp hd hw, ih (p.stamped b) tail hrest]
    simp [Pacemaker.after, List.flatMap_cons]

theorem loop_ticks (beats : List Beat) (p : Pacemaker) (ht : p.ticks beats) :
    p.loop beats = (p.after beats, beats.flatMap Beat.round, Exit.pending) := by
  have h := loop_append beats p [] ht
  simpa [loop_nil] using h

/-- Every script is a run of iterations that go round, followed by nothing or
by an iteration that ends the loop. -/
theorem ticks_or_last (beats : List Beat) :
    ∀ p : Pacemaker, p.ticks beats ∨
      ∃ done b rest, beats = done ++ b :: rest ∧ p.ticks done ∧
        ((∃ e, b.pace = some e) ∨
          (b.pace = none ∧ ((p.after done).stamped b).Dead = true) ∨
          (b.pace = none ∧ ((p.after done).stamped b).Dead = false ∧ b.wake = Wake.stop)) := by
  induction beats with
  | nil => intro p; exact Or.inl trivial
  | cons b bs ih =>
    intro p
    rcases loop_cases p b with ⟨e, hp⟩ | ⟨hp, hd⟩ | ⟨hp, hd, hw⟩ | ⟨hp, hd, hw⟩
    · exact Or.inr ⟨[], b, bs, rfl, trivial, Or.inl ⟨e, hp⟩⟩
    · exact Or.inr ⟨[], b, bs, rfl, trivial, Or.inr (Or.inl ⟨hp, hd⟩)⟩
    · exact Or.inr ⟨[], b, bs, rfl, trivial, Or.inr (Or.inr ⟨hp, hd, hw⟩)⟩
    · rcases ih (p.stamped b) with ht | ⟨done, c, rest, h1, h2, h3⟩
      · exact Or.inl ⟨hp, hd, hw, ht⟩
      · exact Or.inr ⟨b :: done, c, rest, by rw [h1]; rfl, ⟨hp, hd, hw, h2⟩, h3⟩

theorem loop_last_paceErr (p : Pacemaker) (done : List Beat) (b : Beat) (rest : List Beat)
    (e : Err) (ht : p.ticks done) (hp : b.pace = some e) :
    p.loop (done ++ b :: rest) =
      ((p.after done).echoAll b.echoes, done.flatMap Beat.round ++ [Step.pace (some e)],
        Exit.paceErr e) := by
  rw [loop_append done p _ ht, loop_paceErr _ b rest e hp]

theorem loop_last_dead (p : Pacemaker) (done : List Beat) (b : Beat) (rest : List Beat)
    (ht : p.ticks done) (hp : b.pace = none)
    (hd : ((p.after done).stamped b).Dead = true) :
    p.loop (done ++ b :: rest) =
      ((p.after done).stamped b,
        done.flatMap Beat.round ++ [Step.pace none, Step.sent b.now, Step.dead true],
        Exit.dead) := by
  rw [loop_append done p _ ht, loop_dead _ b rest hp hd]

theorem loop_last_stop (p : Pacemaker) (done : List Beat) (b : Beat) (rest : List Beat)
    (ht : p.ticks done) (hp : b.pace = none)
    (hd : ((p.after done).stamped b).Dead = false) (hw : b.wake = Wake.stop) :
    p.loop (done ++ b :: rest) =
      ((p.after done).stamped b,
        done.flatMap Beat.round ++
          [Step.pace none, Step.sent b.now, Step.dead false, Step.recvStop],
        Exit.stopped) := by
  rw [loop_append done p _ ht, loop_stop _ b rest hp hd hw]

/-- The exit of the loop, read off the script. -/
theorem loop_exit (beats : List Beat) (p : Pacemaker) :
    ((p.loop beats).2.2 = Exit.pending ∧ p.ticks beats) ∨
    (∃ done b rest e, beats = done ++ b :: rest ∧ p.ticks done ∧ b.pace = some e ∧
      (p.loop beats).2.2 = Exit.paceErr e) ∨
    (∃ done b rest, beats = done ++ b :: rest ∧ p.ticks done ∧ b.pace = none ∧
      ((p.after done).stamped b).Dead = true ∧ (p.loop beats).2.2 = Exit.dead) ∨
    (∃ done b rest, beats = done ++ b :: rest ∧ p.ticks done ∧ b.pace = none ∧
      ((p.after done).stamped b).Dead = false ∧ b.wake = Wake.stop ∧
      (p.loop beats).2.2 = Exit.stopped) := by
  rcases ticks_or_last beats p with ht | ⟨done, b, rest, rfl, ht, ⟨e, hp⟩ | ⟨hp, hd⟩ | ⟨hp, hd, hw⟩⟩
  · exact Or.inl ⟨by rw [loop_ticks beats p ht], ht⟩
  · exact Or.inr (Or.inl ⟨done, b, rest, e, rfl, ht, hp,
      by rw [loop_last_paceErr p done b rest e ht hp]⟩)
  · exact Or.inr (Or.inr (Or.inl ⟨done, b, rest, rfl, ht, hp, hd,
      by rw [loop_last_dead p done b rest ht hp hd]⟩))
  · exact Or.inr (Or.inr (Or.inr ⟨done, b, rest, rfl, ht, hp, hd, hw,
      by rw [loop_last_stop p done b rest ht hp hd hw]⟩))

theorem loop_pace_count (beats : List Beat) :
    ∀ p : Pacemaker,
      (p.loop beats).2.1.countP Step.isPace =
        (p.loop beats).2.1.count Step.recvTick +
          (if (p.loop beats).2.2 = Exit.pending then 0 else 1) := by
  induction beats with
  | nil => intro p; simp [loop_nil]
  | cons b bs ih =>
    intro p
    rcases loop_cases p b with ⟨e1, hp⟩ | ⟨hp, hd⟩ | ⟨hp, hd, hw⟩ | ⟨hp, hd, hw⟩
    · rw [loop_paceErr p b bs e1 hp]; simp [Step.isPace]
    · rw [loop_dead p b bs hp hd]; simp [Step.isPace, List.countP_cons, List.count_cons]
    · rw [loop_stop p b bs hp hd hw]; simp [Step.isPace, List.countP_cons, List.count_cons]
    · rw [loop_tick p b bs hp hd hw]
      simp only [List.countP_append, List.count_append, ih (p.stamped b)]
      simp [Beat.round, Step.isPace, List.countP_cons, List.count_cons]
      omega

/-- C9. For a positive heartrate (the ticker of `start` needs one) the duty
cycle has exactly one outcome, fixed by the first iteration that does not go
round. If its `Pace` returns `e`, `start` returns `e` at once: the failed
`Pace` is the last action, `SentBeat` is not stamped and `Dead()` not checked
for that beat. If `Pace` succeeds and the `Dead()` check on the stamped state
is true, `start` returns `ErrDead`. If the check is false and the `select`
receives the stop signal, `start` returns nil, and it returns nil in no other
case. While every iteration goes round, `start` has not returned. In each
case `Pace` was invoked first after the echo stamp and once more after every
tick, and never again after the outcome. -/
theorem start_outcome (p : Pacemaker) (t0 : Int) (beats : List Beat)
    (hH : 0 < p.Heartrate) :
    ((p.start t0 beats).2.2 = Exit.pending ↔ (p.Echo t0).ticks beats) ∧
    (∀ e, (p.start t0 beats).2.2.err = some (some e) ∧ e ≠ ErrDead →
      (p.start t0 beats).2.2 = Exit.paceErr e) ∧
    (∀ e, (p.start t0 beats).2.2 = Exit.paceErr e ↔
      ∃ done b rest, beats = done ++ b :: rest ∧ (p.Echo t0).ticks done ∧ b.pace = some e) ∧
    ((p.start t0 beats).2.2 = Exit.dead ↔
      ∃ done b rest, beats = done ++ b :: rest ∧ (p.Echo t0).ticks done ∧ b.pace = none ∧
        (((p.Echo t0).after done).stamped b).Dead = true) ∧
    ((p.start t0 beats).2.2.err = some none ↔
      ∃ done b rest, beats = done ++ b :: rest ∧ (p.Echo t0).ticks done ∧ b.pace = none ∧
        (((p.Echo t0).after done).stamped b).Dead = false ∧ b.wake = Wake.stop) ∧
    (∀ done b rest, beats = done ++ b :: rest → (p.Echo t0).ticks done →
      (∀ e, b.pace = some e →
        p.start t0 beats =
          (((p.Echo t0).after done).echoAll b.echoes,
            Step.echo t0 :: (done.flatMap Beat.round ++ [Step.pace (some e)]),
            Exit.paceErr e)) ∧
      (b.pace = none → (((p.Echo t0).after done).stamped b).Dead = true →
        p.start t0 beats =
          (((p.Echo t0).after done).stamped b,
            Step.echo t0 ::
              (done.flatMap Beat.round ++ [Step.pace none, Step.sent b.now, Step.dead true]),
            Exit.dead)) ∧
      (b.pace = none → (((p.Echo t0).after done).stamped b).Dead = false →
        b.wake = Wake.stop →
        p.start t0 beats =
          (((p.Echo t0).after done).stamped b,
            Step.echo t0 ::
              (done.flatMap Beat.round ++
                [Step.pace none, Step.sent b.now, Step.dead false, Step.recvStop]),
            Exit.stopped))) ∧
    ((p.Echo t0).ticks beats →
      p.start t0 beats =
        ((p.Echo t0).after beats, Step.echo t0 :: beats.flatMap Beat.round, Exit.pending)) ∧
    ((p.start t0 beats).2.1.countP Step.isPace =
      (p.start t0 beats).2.1.count Step.recvTick +
        (if (p.start t0 beats).2.2 = Exit.pending then 0 else 1)) := by
  have hs := start_of_pos p t0 beats hH
  have hexit : (p.start t0 beats).2.2 = ((p.Echo t0).loop beats).2.2 := by rw [hs]
  have hcases := loop_exit beats (p.Echo t0)
  rw [← hexit] at hcases
  refine ⟨?_, ?_, ?_, ?_, ?_, ?_, ?_, ?_⟩
  · constructor
    · intro h
      rcases hcases with ⟨_, ht⟩ | ⟨_, _, _, _, _, _, _, h1⟩ | ⟨_, _, _, _, _, _, _, h1⟩ |
        ⟨_, _, _, _, _, _, _, _, h1⟩
      · exact ht
      · rw [h] at h1; cases h1
      · rw [h] at h1; cases h1
      · rw [h] at h1; cases h1
    · intro ht
      rw [hexit, loop_ticks beats _ ht]
  · rintro e ⟨h, hne⟩
    rcases hcases with ⟨h1, _⟩ | ⟨_, _, _, e1, _, _, _, h1⟩ | ⟨_, _, _, _, _, _, _, h1⟩ |
      ⟨_, _, _, _, _, _, _, _, h1⟩
    · rw [h1] at h; cases h
    · rw [h1] at h ⊢
      simp only [Exit.err, Option.some.injEq] at h
      rw [h]
    · rw [h1] at h
      simp only [Exit.err, Option.some.injEq] at h
      exact absurd h.symm hne
    · rw [h1] at h; cases h
  · intro e
    constructor
    · intro h
      rcases hcases with ⟨h1, _⟩ | ⟨done, b, rest, e1, hb, ht, hp, h1⟩ |
        ⟨_, _, _, _, _, _, _, h1⟩ | ⟨_, _, _, _, _, _, _, _, h1⟩
      · rw [h] at h1; cases h1
      · rw [h] at h1
        simp only [Exit.paceErr.injEq] at h1
        exact ⟨done, b, rest, hb, ht, by rw [h1]; exact hp⟩
      · rw [h] at h1; cases h1
      · rw [h] at h1; cases h1
    · rintro ⟨done, b, rest, rfl, ht, hp⟩
      rw [hexit, loop_last_paceErr _ done b rest e ht hp]
  · constructor
    · intro h
      rcases hcases with ⟨h1, _⟩ | ⟨_, _, _, _, _, _, _, h1⟩ |
        ⟨done, b, rest, hb, ht, hp, hd, _⟩ | ⟨_, _, _, _, _, _, _, _, h1⟩
      · rw [h] at h1; cases h1
      · rw [h] at h1; cases h1
      · exact ⟨done, b, rest, hb, ht, hp, hd⟩
      · rw [h] at h1; cases h1
    · rintro ⟨done, b, rest, rfl, ht, hp, hd⟩
      rw [hexit, loop_last_dead _ done b rest ht hp hd]
  · constructor
    · intro h
      rcases hcases with ⟨h1, _⟩ | ⟨_, _, _, _, _, _, _, h1⟩ | ⟨_, _, _, _, _, _, _, h1⟩ |
        ⟨done, b, rest, hb, ht, hp, hd, hw, _⟩
      · rw [h1] at h; cases h
      · rw [h1] at h; cases h
      · rw [h1] at h; cases h
      · exact ⟨done, b, rest, hb, ht, hp, hd, hw⟩
    · rintro ⟨done, b, rest, rfl, ht, hp, hd, hw⟩
      rw [hexit, loop_last_stop _ done b rest ht hp hd hw]
      rfl
  · rintro done b rest rfl ht
    refine ⟨fun e hp => ?_, fun hp hd => ?_, fun hp hd hw => ?_⟩
    · rw [hs, loop_last_paceErr _ done b rest e ht hp]
    · rw [hs, loop_last_dead _ done b rest ht hp hd]
    · rw [hs, loop_last_stop _ done b rest ht hp hd hw]
  · intro ht
    rw [hs, loop_ticks beats _ ht]
  · have h := loop_pace_count beats (p.Echo t0)
    rw [hs]
    simp only [List.countP_cons, List.count_cons, h]
    simp [Step.isPace]

/-- Witness for C9: a heartrate of five seconds, two iterations that go
round and a third that receives the stop signal. -/
theorem start_outcome_witness :
    0 < fiveSec.Heartrate ∧
    (fiveSec.start 1000000000 promptEcho).2.2.err = some none :=
  ⟨by decide,
   (start_outcome fiveSec 1000000000 promptEcho (by decide)).2.2.2.2.1.mpr
     ⟨[promptEcho.get ⟨0, by decide⟩, promptEcho.get ⟨1, by decide⟩],
      promptEcho.get ⟨2, by decide⟩, [], by decide, by decide, by decide, by decide,
      by decide⟩⟩

/-! ## Gateway: `Close` -/

theorem Close_closed (g : Gateway) (c : Option Err) (hw : g.waitGroup = none)
    (hp : g.paceDeath = false) :
    g.Close c = (g, [Call.AfterClose none], Outcome.returned none) := by
  simp [Gateway.Close, hw, hp]

theorem Close_drained (g : Gateway) (c : Option Err) (hw : g.waitGroup = some 0)
    (hp : g.paceDeath = false) :
    g.Close c =
      ({ g with waitGroup := none }, [Call.Wait, Call.WSClose, Call.AfterClose c],
        Outcome.returned c) := by
  simp [Gateway.Close, hw, hp]

theorem finish_stop (g : Gateway) (p : Pacemaker) (hp : g.Pacemaker = some p)
    (hw : g.waitGroup = some 2) :
    Gateway.finish (g.selectLoop [LoopEv.death none]) =
      ({ g with paceDeath := false, waitGroup := some 0,
                Pacemaker := some { p with stop := false }, undelivered := none }, [],
        Outcome.returned none) := by
  simp [Gateway.finish, Gateway.selectLoop, Gateway.asyncExit, Gateway.wgDone, hp, hw]

theorem Close_live (g : Gateway) (c : Option Err) (p : Pacemaker)
    (hd : g.paceDeath = true) (hp : g.Pacemaker = some p) (hs : p.stop = true)
    (hw : g.waitGroup = some 2) (hu : g.undelivered = none) :
    g.Close c =
      ({ g with paceDeath := false, waitGroup := none,
                Pacemaker := some { p with stop := false }, undelivered := none },
        [Call.Stop, Call.Wait, Call.WSClose, Call.AfterClose c], Outcome.returned c) := by
  simp [Gateway.Close, Gateway.stopPacemaker, Pacemaker.Stop, finish_stop g p hp hw, hd, hp, hs,
    hw, hu]

/-- Once the duty cycle has returned without its error being received, the
stop signal of `Close` is never received. -/
theorem Close_dying (g : Gateway) (c : Option Err) (p : Pacemaker) (e : Err)
    (hd : g.paceDeath = true) (hp : g.Pacemaker = some p) (hs : p.stop = true)
    (hu : g.undelivered = some e) :
    g.Close c = (g, [Call.Stop], Outcome.blocked) := by
  simp [Gateway.Close, Gateway.stopPacemaker, Pacemaker.Stop, Outcome.stuck, hd, hp, hs, hu]

/-- On a state of the invariant `Close` either returns, leaving the gateway
closed with the same session id after one call of `AfterClose`, or blocks in
`Stop` because the duty cycle has already returned. -/
theorem Close_of_Inv (g : Gateway) (c : Option Err) (h : g.Inv) :
    (∃ g1 l r, g.Close c = (g1, l, Outcome.returned r) ∧
      g1.Idle ∧ g1.waitGroup = none ∧ g1.SessionID = g.SessionID ∧
      l.countP Call.isAfterClose = 1 ∧ l.count Call.Dial = 0 ∧
      l.filterMap Call.logged = [] ∧ (g.Live → g.undelivered = none)) ∨
    (g.Live ∧ g.undelivered ≠ none ∧ g.Close c = (g, [Call.Stop], Outcome.blocked)) := by
  rcases h with ⟨hd, hs, hw | hw⟩ | ⟨hd, ⟨p, hp, hs⟩, hw⟩
  · refine Or.inl ⟨_, _, _, Close_closed g c hw hd, ⟨hd, hs, Or.inl hw⟩, hw, rfl, by decide,
      by simp [List.count_cons], by simp [Call.logged], ?_⟩
    rintro ⟨h1, _⟩; rw [hd] at h1; cases h1
  · refine Or.inl ⟨_, _, _, Close_drained g c hw hd, ⟨hd, hs, Or.inl rfl⟩, rfl, rfl, ?_,
      by simp [List.count_cons], by simp [Call.logged], ?_⟩
    · simp [List.countP_cons, Call.isAfterClose]
    · rintro ⟨h1, _⟩; rw [hd] at h1; cases h1
  · cases hu : g.undelivered with
    | none =>
      refine Or.inl ⟨_, _, _, Close_live g c p hd hp hs hw hu, ⟨rfl, ?_, Or.inl rfl⟩, rfl, rfl,
        ?_, by simp [List.count_cons], by simp [Call.logged], fun _ => rfl⟩
      · intro q hq
        simp only [Option.some.injEq] at hq
        rw [← hq]
      · simp [List.countP_cons, Call.isAfterClose]
    | some e =>
      exact Or.inr ⟨⟨hd, ⟨p, hp, hs⟩, hw⟩, by simp,
        Close_dying g c p e hd hp hs hu⟩

/-- When nothing is undelivered, `Close` returns on every state of the
invariant. -/
theorem Close_returns (g : Gateway) (c : Option Err) (h : g.Inv)
    (hu : g.undelivered = none) :
    ∃ g1 l r, g.Close c = (g1, l, Outcome.returned r) ∧
      g1.Idle ∧ g1.waitGroup = none ∧ g1.SessionID = g.SessionID ∧
      l.countP Call.isAfterClose = 1 ∧ l.count Call.Dial = 0 ∧
      l.filterMap Call.logged = [] := by
  rcases Close_of_Inv g c h with ⟨g1, l, r, h1, h2, h3, h4, h5, h6, h7, _⟩ | ⟨_, hne, _⟩
  · exact ⟨g1, l, r, h1, h2, h3, h4, h5, h6, h7⟩
  · exact absurd hu hne

/-! ## Gateway: the handshake of `start` -/

theorem start_bad (g : Gateway) (h : Handshake) (e : Err) (hh : h.hello = Hello.bad e) :
    g.start h =
      ({ g with waitGroup := some 0 }, [Call.Listen, Call.AssertHello],
        some (Err.wrap e "Error at Hello")) := by
  simp [Gateway.start, hh]

theorem start_identify_fail (g : Gateway) (h : Handshake) (rate : Int) (e : Err)
    (hh : h.hello = Hello.ok rate) (hs : g.SessionID = "") (hi : h.identify = some e) :
    g.start h =
      ({ g with waitGroup := some 0 }, [Call.Listen, Call.AssertHello, Call.Identify],
        some (Err.wrap e "Failed to identify")) := by
  simp [Gateway.start, hh, hs, hi]

theorem start_resume_fail (g : Gateway) (h : Handshake) (rate : Int) (e : Err)
    (hh : h.hello = Hello.ok rate) (hs : g.SessionID ≠ "") (hi : h.resume = some e) :
    g.start h =
      ({ g with waitGroup := some 0 }, [Call.Listen, Call.AssertHello, Call.Resume],
        some (Err.wrap e "Failed to resume")) := by
  simp [Gateway.start, hh, hs, hi]

theorem start_confirm_fail (g : Gateway) (h : Handshake) (rate : Int) (e : Err)
    (hh : h.hello = Hello.ok rate)
    (hr : (if g.SessionID = "" then h.identify else h.resume) = none)
    (hc : h.confirm = some e) :
    g.start h =
      ({ g with waitGroup := some 0, SessionID := h.session.getD g.SessionID },
        [Call.Listen, Call.AssertHello,
          (if g.SessionID = "" then Call.Identify else Call.Resume), Call.WaitForEvent],
        some (Err.wrap e "First error")) := by
  by_cases hs : g.SessionID = ""
  · simp only [hs, if_true] at hr ⊢
    simp [Gateway.start, hh, hs, hr, hc]
  · simp only [hs, if_false] at hr ⊢
    simp [Gateway.start, hh, hs, hr, hc]

theorem start_ok (g : Gateway) (h : Handshake) (rate : Int)
    (hh : h.hello = Hello.ok rate)
    (hr : (if g.SessionID = "" then h.identify else h.resume) = none)
    (hc : h.confirm = none) :
    g.start h =
      ({ SessionID := h.session.getD g.SessionID, paceDeath := true, waitGroup := some 2,
         Pacemaker := some { Heartrate := rate, SentBeat := 0, EchoBeat := 0, stop := true },
         undelivered := none },
        [Call.Listen, Call.AssertHello,
          (if g.SessionID = "" then Call.Identify else Call.Resume), Call.WaitForEvent,
          Call.StartAsync rate, Call.goHandleWS],
        none) := by
  by_cases hs : g.SessionID = ""
  · simp only [hs, if_true] at hr ⊢
    simp [Gateway.start, hh, hs, hr, hc]
  · simp only [hs, if_false] at hr ⊢
    simp [Gateway.start, hh, hs, hr, hc]

/-- What `start` does for each way of failing. -/
theorem start_of_FailsWith (g : Gateway) (h : Handshake) (err : Err) (hf : FailsWith g h err) :
    ∃ req sid, g.start h = ({ g with waitGroup := some 0, SessionID := sid }, req, some err) ∧
      (FailsEarly g h err → sid = g.SessionID) ∧
      (FailsWaiting g h err → sid = h.session.getD g.SessionID) ∧
      (∀ k, Call.StartAsync k ∉ req) ∧ Call.goHandleWS ∉ req ∧
      req.countP Call.isAfterClose = 0 ∧ req.count Call.WSClose = 0 ∧
      req.count Call.Dial = 0 ∧ req.filterMap Call.logged = [] := by
  have hexcl : FailsEarly g h err → FailsWaiting g h err → False := by
    rintro (⟨e, hh, _⟩ | ⟨rate, e, hh, hs, hi, _⟩ | ⟨rate, e, hh, hs, hi, _⟩)
      ⟨rate1, e1, hh1, hr1, _, _⟩
    · rw [hh] at hh1; cases hh1
    · simp only [hs, if_true, hi] at hr1; cases hr1
    · simp only [hs, if_false, hi] at hr1; cases hr1
  rcases hf with hearly | hwait
  · have hw : FailsWaiting g h err → g.SessionID = h.session.getD g.SessionID :=
      fun hw => (hexcl hearly hw).elim
    rcases hearly with ⟨e, hh, rfl⟩ | ⟨rate, e, hh, hs, hi, rfl⟩ | ⟨rate, e, hh, hs, hi, rfl⟩
    · exact ⟨_, g.SessionID, start_bad g h e hh, fun _ => rfl, hw, by simp, by simp,
        by simp [Call.isAfterClose], by simp [List.count_cons], by simp [List.count_cons],
        by simp [Call.logged]⟩
    · exact ⟨_, g.SessionID, start_identify_fail g h rate e hh hs hi, fun _ => rfl, hw,
        by simp, by simp, by simp [Call.isAfterClose], by simp [List.count_cons],
        by simp [List.count_cons], by simp [Call.logged]⟩
    · exact ⟨_, g.SessionID, start_resume_fail g h rate e hh hs hi, fun _ => rfl, hw,
        by simp, by simp, by simp [Call.isAfterClose], by simp [List.count_cons],
        by simp [List.count_cons], by simp [Call.logged]⟩
  · have he : FailsEarly g h err → h.session.getD g.SessionID = g.SessionID :=
      fun he => (hexcl he hwait).elim
    obtain ⟨rate, e, hh, hr, hc, rfl⟩ := hwait
    refine ⟨_, h.session.getD g.SessionID, start_confirm_fail g h rate e hh hr hc, he,
      fun _ => rfl, ?_, ?_, ?_, ?_, ?_, ?_⟩ <;>
      by_cases hs : g.SessionID = "" <;>
      simp [hs, Call.isAfterClose, List.count_cons, Call.logged]

theorem start_cases (g : Gateway) (h : Handshake) :
    (∃ err, FailsWith g h err ∧ (g.start h).2.2 = some err) ∨
    ((g.start h).2.2 = none ∧ (g.start h).1.Live ∧ (g.start h).1.undelivered = none ∧
      (g.start h).2.1.count Call.Dial = 0 ∧ (g.start h).2.1.filterMap Call.logged = [] ∧
      (g.start h).2.1.countP Call.isAfterClose = 0) := by
  cases hh : h.hello with
  | bad e =>
    refine Or.inl ⟨_, Or.inl (Or.inl ⟨e, hh, rfl⟩), ?_⟩
    rw [start_bad g h e hh]
  | ok rate =>
    cases hr : (if g.SessionID = "" then h.identify else h.resume) with
    | some e =>
      by_cases hs : g.SessionID = ""
      · simp only [hs, if_true] at hr
        refine Or.inl ⟨_, Or.inl (Or.inr (Or.inl ⟨rate, e, hh, hs, hr, rfl⟩)), ?_⟩
        rw [start_identify_fail g h rate e hh hs hr]
      · simp only [hs, if_false] at hr
        refine Or.inl ⟨_, Or.inl (Or.inr (Or.inr ⟨rate, e, hh, hs, hr, rfl⟩)), ?_⟩
        rw [start_resume_fail g h rate e hh hs hr]
    | none =>
      cases hc : h.confirm with
      | some e =>
        refine Or.inl ⟨_, Or.inr ⟨rate, e, hh, hr, hc, rfl⟩, ?_⟩
        rw [start_confirm_fail g h rate e hh hr hc]
      | none =>
        refine Or.inr ?_
        rw [start_ok g h rate hh hr hc]
        refine ⟨rfl, ⟨rfl, ⟨_, rfl, rfl⟩, rfl⟩, rfl, ?_⟩
        by_cases hs : g.SessionID = "" <;>
          simp [hs, List.count_cons, Call.logged, Call.isAfterClose]

/-! ## Gateway: `Start`, `Open` and the dial loop -/

theorem Start_fail (g : Gateway) (h : Handshake) (c : Option Err) (err : Err)
    (hp : g.paceDeath = false) (hf : FailsWith g h err) :
    (g.start h).2.2 = some err ∧
    g.Start h c =
      ({ g with waitGroup := none, SessionID := (g.start h).1.SessionID },
        (g.start h).2.1 ++ [Call.Wait, Call.WSClose, Call.AfterClose c],
        Outcome.returned (some err)) := by
  obtain ⟨req, sid, hst, _⟩ := start_of_FailsWith g h err hf
  have hc := Close_drained { g with waitGroup := some 0, SessionID := sid } c rfl hp
  refine ⟨by rw [hst], ?_⟩
  simp only [Gateway.Start, hst, hc]

theorem Start_ok (g : Gateway) (h : Handshake) (c : Option Err)
    (hf : (g.start h).2.2 = none) :
    g.Start h c = ((g.start h).1, (g.start h).2.1, Outcome.returned none) := by
  simp only [Gateway.Start, hf]

theorem FailsWith_congr (g g1 : Gateway) (h : Handshake) (err : Err)
    (hs : g.SessionID = g1.SessionID) (hf : FailsWith g h err) : FailsWith g1 h err := by
  unfold FailsWith FailsEarly FailsWaiting at *
  rw [← hs]
  exact hf

theorem start_congr (g g1 : Gateway) (h : Handshake) (hs : g.SessionID = g1.SessionID) :
    (g.start h).2.2 = (g1.start h).2.2 ∧
    (g.start h).1.SessionID = (g1.start h).1.SessionID := by
  rcases start_cases g h with ⟨err, hf, _⟩ | ⟨hn, _⟩
  · obtain ⟨req, sid, hst, he, hw, _⟩ := start_of_FailsWith g h err hf
    have hf1 := FailsWith_congr g g1 h err hs hf
    obtain ⟨req1, sid1, hst1, he1, hw1, _⟩ := start_of_FailsWith g1 h err hf1
    rw [hst, hst1]
    refine ⟨rfl, ?_⟩
    show sid = sid1
    rcases hf with hearly | hwait
    · have hearly1 : FailsEarly g1 h err := by
        unfold FailsEarly at *; rw [← hs]; exact hearly
      rw [he hearly, he1 hearly1, hs]
    · have hwait1 : FailsWaiting g1 h err := by
        unfold FailsWaiting at *; rw [← hs]; exact hwait
      rw [hw hwait, hw1 hwait1, hs]
  · rcases start_cases g1 h with ⟨err1, hf1, _⟩ | ⟨hn1, _⟩
    · have hf0 := FailsWith_congr g1 g h err1 hs.symm hf1
      obtain ⟨_, _, hst, _⟩ := start_of_FailsWith g h err1 hf0
      rw [hst] at hn; cases hn
    · refine ⟨by rw [hn, hn1], ?_⟩
      cases hh : h.hello with
      | bad e => rw [start_bad g h e hh] at hn; cases hn
      | ok rate =>
        cases hr : (if g.SessionID = "" then h.identify else h.resume) with
        | some e =>
          by_cases hsid : g.SessionID = ""
          · simp only [hsid, if_true] at hr
            rw [start_identify_fail g h rate e hh hsid hr] at hn; cases hn
          · simp only [hsid, if_false] at hr
            rw [start_resume_fail g h rate e hh hsid hr] at hn; cases hn
        | none =>
          have hr1 : (if g1.SessionID = "" then h.identify else h.resume) = none := by
            rw [← hs]; exact hr
          cases hc : h.confirm with
          | some e => rw [start_confirm_fail g h rate e hh hr hc] at hn; cases hn
          | none =>
            rw [start_ok g h rate hh hr hc, start_ok g1 h rate hh hr1 hc]
            simp only [hs]

/-- What `Open` does on a gateway without a running pacemaker. -/
theorem Open_spec (g : Gateway) (a : Attempt) (hp : g.paceDeath = false) :
    ∃ g1 l, g.Open a = (g1, l, Outcome.returned (openResult g.SessionID a)) ∧
      l.count Call.Dial = 1 ∧ l.filterMap Call.logged = [] ∧
      g1.SessionID = openSession g.SessionID a ∧
      ((openResult g.SessionID a ≠ none ∧ g1.paceDeath = false ∧
          g1.Pacemaker = g.Pacemaker ∧
          (g1.waitGroup = g.waitGroup ∨ g1.waitGroup = none)) ∨
        (openResult g.SessionID a = none ∧ g1.Live ∧ g1.undelivered = none)) := by
  cases hd : a.dial with
  | some e =>
    refine ⟨g, [Call.Dial], ?_, by decide, by decide, ?_,
      Or.inl ⟨?_, hp, rfl, Or.inl rfl⟩⟩ <;>
      simp [Gateway.Open, openResult, openSession, hd]
  | none =>
    have hcongr := start_congr { NewCustomGateway with SessionID := g.SessionID } g a.hs rfl
    rcases start_cases g a.hs with ⟨err, hf, hfe⟩ | ⟨hn, hlive, hund, hdial, hlog, _⟩
    · obtain ⟨req, sid, hst, _, _, _, _, _, _, hdial, hlog⟩ :=
        start_of_FailsWith g a.hs err hf
      have hf0 := FailsWith_congr g { NewCustomGateway with SessionID := g.SessionID } a.hs err
        rfl hf
      have hS0 := (Start_fail { NewCustomGateway with SessionID := g.SessionID } a.hs a.wsClose
        err rfl hf0).2
      have hS := (Start_fail g a.hs a.wsClose err hp hf).2
      have hres : openResult g.SessionID a = some err := by
        simp only [openResult, Gateway.Open, hd]
        rw [hS0]
      have hses : openSession g.SessionID a = (g.start a.hs).1.SessionID := by
        simp only [openSession, Gateway.Open, hd]
        rw [hS0]
        exact hcongr.2
      refine ⟨{ g with waitGroup := none, SessionID := (g.start a.hs).1.SessionID },
        Call.Dial :: ((g.start a.hs).2.1 ++ [Call.Wait, Call.WSClose, Call.AfterClose a.wsClose]),
        ?_, ?_, ?_, hses.symm, Or.inl ⟨by rw [hres]; simp, hp, rfl, Or.inr rfl⟩⟩
      · simp only [Gateway.Open, hd, hS, hres]
      · rw [hst]; simp [List.count_cons, List.count_append, hdial]
      · rw [hst]; simp [List.filterMap_cons, List.filterMap_append, hlog, Call.logged]
    · have hres : openResult g.SessionID a = none := by
        simp only [openResult, Gateway.Open, hd]
        rw [Start_ok _ a.hs a.wsClose (hcongr.1.trans hn)]
      have hses : openSession g.SessionID a = (g.start a.hs).1.SessionID := by
        simp only [openSession, Gateway.Open, hd]
        rw [Start_ok _ a.hs a.wsClose (hcongr.1.trans hn)]
        exact hcongr.2
      refine ⟨(g.start a.hs).1, Call.Dial :: (g.start a.hs).2.1, ?_, ?_, ?_, hses.symm,
        Or.inr ⟨hres, hlive, hund⟩⟩
      · simp only [Gateway.Open, hd, Start_ok g a.hs a.wsClose hn, hres]
      · simp [List.count_cons, hdial]
      · simp [List.filterMap_cons, hlog, Call.logged]

theorem redial_cons_fail (g g1 : Gateway) (a : Attempt) (rest : List Attempt)
    (l : List Call) (err : Err) (h : g.Open a = (g1, l, Outcome.returned (some err))) :
    g.redial (a :: rest) =
      ((g1.redial rest).1,
        l ++ Call.ErrorLog (Err.wrap err "Failed to open gateway") :: (g1.redial rest).2.1,
        (g1.redial rest).2.2) := by
  simp only [Gateway.redial, h]

theorem redial_cons_ok (g g1 : Gateway) (a : Attempt) (rest : List Attempt)
    (l : List Call) (h : g.Open a = (g1, l, Outcome.returned none)) :
    g.redial (a :: rest) = (g1, l, Outcome.returned ()) := by
  simp only [Gateway.redial, h]

/-- The dial loop keeps the invariant. -/
theorem redial_Inv (attempts : List Attempt) :
    ∀ (g g1 : Gateway) (l : List Call), g.Idle →
      g.redial attempts = (g1, l, Outcome.returned ()) → g1.Inv := by
  induction attempts with
  | nil => intro g g1 l _ h; simp [Gateway.redial] at h
  | cons a rest ih =>
    intro g g1 l hi h
    obtain ⟨g2, l2, ho, _, _, _, hcase⟩ := Open_spec g a hi.1
    rcases hcase with ⟨hne, hpd, hpm, hwg⟩ | ⟨hn, hlive, _⟩
    · obtain ⟨err, herr⟩ := Option.ne_none_iff_exists'.mp hne
      rw [herr] at ho
      rw [redial_cons_fail g g2 a rest l2 err ho] at h
      have hi2 : g2.Idle := by
        refine ⟨hpd, by rw [hpm]; exact hi.2.1, ?_⟩
        rcases hwg with hw | hw
        · rw [hw]; exact hi.2.2
        · exact Or.inl hw
      have h3 := congrArg (fun r => r.2.2) h
      have h1 := congrArg (fun r => r.1) h
      simp only at h3 h1
      have hinv := ih g2 (g2.redial rest).1 (g2.redial rest).2.1 hi2
        (Prod.ext rfl (Prod.ext rfl h3))
      rw [h1] at hinv
      exact hinv
    · rw [hn] at ho
      rw [redial_cons_ok g g2 a rest l2 ho] at h
      have h1 := congrArg (fun r => r.1) h
      simp only at h1
      rw [← h1]
      exact Or.inr hlive

/-! ## Gateway: the dispatch loop and the reconnect -/

theorem selectLoop_death (g : Gateway) (d : Option Err) (rest : List LoopEv) :
    g.selectLoop (LoopEv.death d :: rest) =
      ({ g with paceDeath := false }, [],
        Outcome.returned (d.map (fun e => Err.wrap e "Pacemaker died, reconnecting"))) := by
  cases d <;> simp [Gateway.selectLoop]

theorem selectLoop_frames (frames : List LoopEv) (hf : ∀ ev ∈ frames, ev.isFrame = true)
    (g : Gateway) (rest : List LoopEv) :
    g.selectLoop (frames ++ rest) =
      ((g.selectLoop rest).1, frames.filterMap LoopEv.logged ++ (g.selectLoop rest).2.1,
        (g.selectLoop rest).2.2) := by
  induction frames with
  | nil => simp
  | cons ev frames ih =>
    have hev := hf ev (List.mem_cons_self _ _)
    have ih1 := ih (fun x hx => hf x (List.mem_cons_of_mem _ hx))
    cases ev with
    | death d => simp [LoopEv.isFrame] at hev
    | frame handled =>
      cases handled with
      | none => simp [Gateway.selectLoop, ih1, LoopEv.logged]
      | some e => simp [Gateway.selectLoop, ih1, LoopEv.logged]

theorem selectLoop_cases (evs : List LoopEv) (g : Gateway) :
    ((g.selectLoop evs).2.2 = Outcome.pending ∧ (g.selectLoop evs).1 = g) ∨
    (∃ err, (g.selectLoop evs).2.2 = Outcome.returned err ∧
      (g.selectLoop evs).1 = { g with paceDeath := false }) := by
  induction evs with
  | nil => exact Or.inl ⟨rfl, rfl⟩
  | cons ev evs ih =>
    cases ev with
    | death d => rw [selectLoop_death]; exact Or.inr ⟨_, rfl, rfl⟩
    | frame handled =>
      cases handled with
      | none => simpa [Gateway.selectLoop] using ih
      | some e => simpa [Gateway.selectLoop] using ih

theorem eventLoop_frames_death (g : Gateway) (frames : List LoopEv)
    (hf : ∀ ev ∈ frames, ev.isFrame = true) (d : Option Err) (rest : List LoopEv) :
    g.eventLoop (frames ++ LoopEv.death d :: rest) =
      ({ g with paceDeath := false }, Call.Listen :: frames.filterMap LoopEv.logged,
        Outcome.returned (d.map (fun e => Err.wrap e "Pacemaker died, reconnecting"))) := by
  simp [Gateway.eventLoop, selectLoop_frames frames hf g, selectLoop_death]

theorem eventLoop_frames_only (g : Gateway) (frames : List LoopEv)
    (hf : ∀ ev ∈ frames, ev.isFrame = true) :
    g.eventLoop frames = (g, Call.Listen :: frames.filterMap LoopEv.logged, Outcome.pending) := by
  have h := selectLoop_frames frames hf g []
  simp only [List.append_nil] at h
  simp [Gateway.eventLoop, h, Gateway.selectLoop]

/-- On a live gateway, the end of the dispatch loop leaves the gateway idle
with a drained `waitGroup`. -/
theorem loopExit_Live (g : Gateway) (evs : List LoopEv) (hl : g.Live) :
    ((g.loopExit evs).2.2 = Outcome.pending ∧ (g.loopExit evs).1 = g) ∨
    (∃ err, (g.eventLoop evs).2.2 = Outcome.returned err ∧
      g.loopExit evs = (g.ended, (g.eventLoop evs).2.1, Outcome.returned err)) := by
  obtain ⟨_, ⟨p, hp, _⟩, hw⟩ := hl
  rcases selectLoop_cases evs g with ⟨h1, h2⟩ | ⟨err, h1, h2⟩
  · left
    simp only [Gateway.loopExit, Gateway.finish, Gateway.eventLoop, h1, h2, and_self]
  · right
    refine ⟨err, by simp only [Gateway.eventLoop, h1], ?_⟩
    simp [Gateway.loopExit, Gateway.finish, Gateway.eventLoop, h1, h2, Gateway.asyncExit,
      Gateway.wgDone, hw, hp, Gateway.ended]

theorem loopExit_Live_death (g : Gateway) (frames : List LoopEv)
    (hf : ∀ ev ∈ frames, ev.isFrame = true) (d : Option Err) (rest : List LoopEv)
    (hl : g.Live) :
    g.loopExit (frames ++ LoopEv.death d :: rest) =
      (g.ended, Call.Listen :: frames.filterMap LoopEv.logged,
        Outcome.returned (d.map (fun e => Err.wrap e "Pacemaker died, reconnecting"))) := by
  have he := eventLoop_frames_death g frames hf d rest
  rcases loopExit_Live g (frames ++ LoopEv.death d :: rest) hl with ⟨h1, _⟩ | ⟨err, h1, h2⟩
  · obtain ⟨_, ⟨p, hp, _⟩, hw⟩ := hl
    simp [Gateway.loopExit, Gateway.finish, he, Gateway.asyncExit, Gateway.wgDone, hw, hp] at h1
  · rw [h2, he]
    rw [he] at h1
    simp only [Outcome.returned.injEq] at h1
    simp [h1]

theorem idle_of_loopExit (g : Gateway) (hl : g.Live) : g.ended.Idle := by
  refine ⟨rfl, ?_, Or.inr rfl⟩
  intro q hq
  obtain ⟨_, ⟨p, hp, _⟩, _⟩ := hl
  simp only [Gateway.ended, hp, Option.map_some', Option.some.injEq] at hq
  rw [← hq]

theorem Reconnect_Inv (g g1 : Gateway) (c : Option Err) (attempts : List Attempt)
    (l : List Call) (h : g.Inv) (hr : g.Reconnect c attempts = (g1, l, Outcome.returned ())) :
    g1.Inv := by
  rcases Close_of_Inv g c h with ⟨g2, l2, r2, hc, hi, _⟩ | ⟨_, _, hb⟩
  · simp only [Gateway.Reconnect, hc] at hr
    have h3 := congrArg (fun r => r.2.2) hr
    have h1 := congrArg (fun r => r.1) hr
    simp only at h3 h1
    have hinv := redial_Inv attempts g2 (g2.redial attempts).1 (g2.redial attempts).2.1 hi
      (Prod.ext rfl (Prod.ext rfl h3))
    rw [h1] at hinv
    exact hinv
  · simp [Gateway.Reconnect, hb, Outcome.stuck] at hr

/-- Every reachable state is idle or live. -/
theorem Reachable.inv {g : Gateway} (h : Reachable g) : g.Inv := by
  induction h with
  | init => exact Or.inl ⟨rfl, fun p hp => (by cases hp), Or.inl rfl⟩
  | opened g g1 a l r _ hw ho ih =>
    have hi : g.Idle := by
      rcases ih with hi | ⟨_, _, h2⟩
      · exact hi
      · rw [hw] at h2; cases h2
    obtain ⟨g2, l2, ho2, _, _, _, hcase⟩ := Open_spec g a hi.1
    rw [ho] at ho2
    have h1 : g1 = g2 := congrArg (fun r => r.1) ho2
    rw [h1]
    rcases hcase with ⟨_, hpd, hpm, hwg⟩ | ⟨_, hlive, _⟩
    · refine Or.inl ⟨hpd, by rw [hpm]; exact hi.2.1, ?_⟩
      rcases hwg with hw2 | hw2
      · rw [hw2]; exact hi.2.2
      · exact Or.inl hw2
    · exact Or.inr hlive
  | started g g1 hs c l r _ hw ho ih =>
    have hi : g.Idle := by
      rcases ih with hi | ⟨_, _, h2⟩
      · exact hi
      · rw [hw] at h2; cases h2
    rcases start_cases g hs with ⟨err, hf, _⟩ | ⟨hn, hlive, _⟩
    · rw [(Start_fail g hs c err hi.1 hf).2] at ho
      have h1 := congrArg (fun r => r.1) ho
      simp only at h1
      rw [← h1]; exact Or.inl ⟨hi.1, hi.2.1, Or.inl rfl⟩
    · rw [Start_ok g hs c hn] at ho
      have h1 := congrArg (fun r => r.1) ho
      simp only at h1
      rw [← h1]; exact Or.inr hlive
  | closed g g1 c l r _ hc ih =>
    rcases Close_of_Inv g c ih with ⟨g2, l2, r2, hc2, hi, _⟩ | ⟨_, _, hb⟩
    · rw [hc] at hc2
      have h1 : g1 = g2 := congrArg (fun r => r.1) hc2
      rw [h1]; exact Or.inl hi
    · rw [hc] at hb
      have h3 := congrArg (fun r => r.2.2) hb
      cases h3
  | reconnected g g1 c attempts l _ hr ih => exact Reconnect_Inv g g1 c attempts l ih hr
  | exiting g e _ hp _ ih =>
    rcases ih with ⟨h2, _⟩ | hl
    · rw [hp] at h2; cases h2
    · exact Or.inr hl
  | died g g1 evs l err _ hp _ hd ih =>
    have hl : g.Live := by
      rcases ih with ⟨h2, _⟩ | hl
      · rw [hp] at h2; cases h2
      · exact hl
    rcases loopExit_Live g evs hl with ⟨h1, _⟩ | ⟨err1, _, h2⟩
    · rw [hd] at h1; cases h1
    · rw [hd] at h2
      have h1 := congrArg (fun r => r.1) h2
      simp only at h1
      rw [h1]; exact Or.inl (idle_of_loopExit g hl)
  | handled g g1 evs c attempts l _ hp _ hh ih =>
    have hl : g.Live := by
      rcases ih with ⟨h2, _⟩ | hl
      · rw [hp] at h2; cases h2
      · exact hl
    rcases loopExit_Live g evs hl with ⟨h1, _⟩ | ⟨err1, _, h2⟩
    · simp [Gateway.handleWS, h1, Outcome.stuck] at hh
    · cases err1 with
      | none =>
        simp only [Gateway.handleWS, h2] at hh
        have h1 := congrArg (fun r => r.1) hh
        simp only at h1
        rw [← h1]; exact Or.inl (idle_of_loopExit g hl)
      | some e =>
        simp only [Gateway.handleWS, h2] at hh
        have h3 := congrArg (fun r => r.2.2) hh
        have h1 := congrArg (fun r => r.1) hh
        simp only at h3 h1
        have hinv := Reconnect_Inv _ _ c attempts _ (Or.inl (idle_of_loopExit g hl))
          (Prod.ext rfl (Prod.ext rfl h3))
        rw [← h1]
        exact hinv

/-! ## Gateway: the claims about the handshake -/

/-- C4. Whenever the first frame is accepted as Hello, `start` makes exactly
one handshake request, as its third call and before any `WaitForEvent`:
`g.Identify()` if and only if `SessionID` is empty, `g.Resume()` otherwise,
never both. -/
theorem start_one_request (g : Gateway) (h : Handshake) (rate : Int)
    (hh : h.hello = Hello.ok rate) :
    (∃ tail, (g.start h).2.1 =
        [Call.Listen, Call.AssertHello,
          (if g.SessionID = "" then Call.Identify else Call.Resume)] ++ tail ∧
      Call.Identify ∉ tail ∧ Call.Resume ∉ tail) ∧
    (Call.Identify ∈ (g.start h).2.1 ↔ g.SessionID = "") ∧
    (Call.Resume ∈ (g.start h).2.1 ↔ g.SessionID ≠ "") ∧
    (g.start h).2.1.count Call.Identify + (g.start h).2.1.count Call.Resume = 1 := by
  cases hr : (if g.SessionID = "" then h.identify else h.resume) with
  | some e =>
    by_cases hs : g.SessionID = ""
    · simp only [hs, if_true] at hr
      rw [start_identify_fail g h rate e hh hs hr]
      exact ⟨⟨[], by simp [hs], by simp, by simp⟩, by simp [hs], by simp [hs],
        by simp [List.count_cons]⟩
    · simp only [hs, if_false] at hr
      rw [start_resume_fail g h rate e hh hs hr]
      exact ⟨⟨[], by simp [hs], by simp, by simp⟩, by simp [hs], by simp [hs],
        by simp [List.count_cons]⟩
  | none =>
    cases hc : h.confirm with
    | some e =>
      rw [start_confirm_fail g h rate e hh hr hc]
      refine ⟨⟨[Call.WaitForEvent], by simp, by simp, by simp⟩, ?_, ?_, ?_⟩ <;>
        by_cases hs : g.SessionID = "" <;> simp [hs, List.count_cons]
    | none =>
      rw [start_ok g h rate hh hr hc]
      refine ⟨⟨[Call.WaitForEvent, Call.StartAsync rate, Call.goHandleWS], by simp, by simp,
        by simp⟩, ?_, ?_, ?_⟩ <;>
        by_cases hs : g.SessionID = "" <;> simp [hs, List.count_cons]

/-- Witness for C4: a fresh gateway identifies. -/
theorem start_one_request_witness :
    goodHandshake.hello = Hello.ok 5000000000 ∧
    (Call.Identify ∈ (NewCustomGateway.start goodHandshake).2.1 ↔
      NewCustomGateway.SessionID = "") :=
  ⟨rfl, (start_one_request NewCustomGateway goodHandshake 5000000000 rfl).2.1⟩

/-- C10 (amended). When a handshake step fails on a gateway without a running
pacemaker, `Start` starts no pacemaker and no dispatch loop, calls `Close`
once (one `WS.Close()`, one `AfterClose`), returns the handshake error
whatever `Close` returned, and leaves the gateway closed (`waitGroup` nil)
with `Pacemaker` and `paceDeath` unchanged. `SessionID` is unchanged when the
first frame is not Hello or the Identify or Resume request fails; when the
wait for READY/RESUMED fails it is what the frames handled during the wait
left there. -/
theorem Start_unwinds (g : Gateway) (h : Handshake) (c : Option Err) (err : Err)
    (hp : g.paceDeath = false) (hf : FailsWith g h err) :
    (g.start h).2.2 = some err ∧
    (g.Start h c).2.2 = Outcome.returned (some err) ∧
    (g.Start h c).2.1 = (g.start h).2.1 ++ [Call.Wait, Call.WSClose, Call.AfterClose c] ∧
    (FailsEarly g h err → (g.Start h c).1 = { g with waitGroup := none }) ∧
    (FailsWaiting g h err →
      (g.Start h c).1 = { g with waitGroup := none, SessionID := h.session.getD g.SessionID }) ∧
    (∀ k, Call.StartAsync k ∉ (g.Start h c).2.1) ∧
    Call.goHandleWS ∉ (g.Start h c).2.1 ∧
    (g.Start h c).2.1.countP Call.isAfterClose = 1 ∧
    (g.Start h c).2.1.count Call.WSClose = 1 := by
  obtain ⟨req, sid, hs, he, hw, h1, h2, h3, h4, _⟩ := start_of_FailsWith g h err hf
  obtain ⟨_, hS⟩ := Start_fail g h c err hp hf
  rw [hS, hs]
  refine ⟨rfl, rfl, rfl, ?_, ?_, ?_, ?_, ?_, ?_⟩
  · intro hearly
    simp only [he hearly]
  · intro hwait
    simp only [hw hwait]
  · intro k
    simp only [List.mem_append, not_or]
    exact ⟨h1 k, by simp⟩
  · simp only [List.mem_append, not_or]
    exact ⟨h2, by simp⟩
  · simp only [List.countP_append, h3]
    simp [Call.isAfterClose]
  · simp only [List.count_append, h4]
    simp [List.count_cons]

/-- Witness for C10: a fresh gateway whose first frame is not Hello, and whose
transport fails to close. -/
theorem Start_unwinds_witness :
    FailsWith NewCustomGateway badHandshake
      (Err.wrap (Err.msg "unexpected opcode") "Error at Hello") ∧
    (NewCustomGateway.Start badHandshake (some (Err.msg "close failed"))).2.2 =
      Outcome.returned (some (Err.wrap (Err.msg "unexpected opcode") "Error at Hello")) ∧
    (NewCustomGateway.Start badHandshake (some (Err.msg "close failed"))).1 =
      { NewCustomGateway with waitGroup := none } :=
  ⟨Or.inl (Or.inl ⟨_, rfl, rfl⟩),
   (Start_unwinds NewCustomGateway badHandshake (some (Err.msg "close failed"))
     (Err.wrap (Err.msg "unexpected opcode") "Error at Hello") rfl
     (Or.inl (Or.inl ⟨_, rfl, rfl⟩))).2.1,
   (Start_unwinds NewCustomGateway badHandshake (some (Err.msg "close failed"))
     (Err.wrap (Err.msg "unexpected opcode") "Error at Hello") rfl
     (Or.inl (Or.inl ⟨_, rfl, rfl⟩))).2.2.2.1 (Or.inl ⟨_, rfl, rfl⟩)⟩

/-- C10 (as stated) fails: a closed gateway holding the session id `abc`
resumes, the server answers with Invalid-session and closes the stream; the
wait for READY/RESUMED fails, `Start` unwinds through `Close` and returns the
handshake error, but the session id has been cleared. -/
theorem Start_unwinds_counterexample :
    closedGateway.paceDeath = false ∧ closedGateway.SessionID = "abc" ∧
    FailsWith closedGateway invalidSession
      (Err.wrap (Err.msg "Event not found and event channel is closed.") "First error") ∧
    (closedGateway.Start invalidSession none).2.2 =
      Outcome.returned
        (some (Err.wrap (Err.msg "Event not found and event channel is closed.")
          "First error")) ∧
    (closedGateway.Start invalidSession none).1.waitGroup = none ∧
    (closedGateway.Start invalidSession none).1.SessionID = "" :=
  ⟨by decide, by decide, Or.inr ⟨5000000000, _, rfl, by decide, rfl, rfl⟩, by decide,
    by decide, by decide⟩

/-! ## Gateway: the claims about `Close`, `Reconnect` and the dispatch loop -/

theorem reachable_live : Reachable liveGateway :=
  Reachable.opened NewCustomGateway liveGateway goodAttempt
    (NewCustomGateway.Open goodAttempt).2.1 none Reachable.init rfl rfl

theorem live_of_reachable (g : Gateway) (hr : Reachable g) (hl : g.paceDeath = true) :
    g.Live := by
  rcases hr.inv with ⟨h2, _⟩ | h
  · rw [hl] at h2; cases h2
  · exact h

/-- C5 (the code at the failing input). The state in which the duty cycle of
the pacemaker of a live connection has returned `ErrDead`, and the dispatch
loop has not yet received it from `paceDeath`, is reachable; there `p.stop`
is still non-nil, so `Close` calls `Stop`, whose send on `p.stop` nothing
receives any more: the first `Close` never returns, and `AfterClose` is not
called. -/
theorem Close_blocks_after_pacemaker_exit :
    Reachable dyingGateway ∧
    dyingGateway.Close none = (dyingGateway, [Call.Stop], Outcome.blocked) ∧
    (dyingGateway.Close none).2.1.countP Call.isAfterClose = 0 :=
  ⟨Reachable.exiting liveGateway ErrDead reachable_live rfl rfl, by decide, by decide⟩

/-- In every reachable state with a pacemaker that has exited undelivered,
`Close` blocks in `Stop`. -/
theorem Close_blocks (g : Gateway) (hr : Reachable g) (e : Err)
    (hl : g.paceDeath = true) (hu : g.undelivered = some e) (c : Option Err) :
    g.Close c = (g, [Call.Stop], Outcome.blocked) := by
  obtain ⟨hd, ⟨p, hp, hs⟩, _⟩ := live_of_reachable g hr hl
  exact Close_dying g c p e hd hp hs hu

/-- In every reachable state a nil `waitGroup` implies a nil `paceDeath`; and
when no pacemaker exit is undelivered, two `Close` calls in a row both return
and call `AfterClose` once each, the second one finding the gateway closed,
returning nil, passing nil to `AfterClose` and making no other call. -/
theorem Close_twice (g : Gateway) (hr : Reachable g) (c1 c2 : Option Err) :
    (g.waitGroup = none → g.paceDeath = false) ∧
    (g.undelivered = none →
      ∃ g1 l1 r1, g.Close c1 = (g1, l1, Outcome.returned r1) ∧
        l1.countP Call.isAfterClose = 1 ∧
        g1.waitGroup = none ∧ g1.paceDeath = false ∧
        g1.Close c2 = (g1, [Call.AfterClose none], Outcome.returned none)) := by
  constructor
  · intro hw
    rcases hr.inv with hi | ⟨_, _, h2⟩
    · exact hi.1
    · rw [hw] at h2; cases h2
  · intro hu
    obtain ⟨g1, l1, r1, hc, hi, hw, _, hn, _⟩ := Close_returns g c1 hr.inv hu
    exact ⟨g1, l1, r1, hc, hn, hw, hi.1, Close_closed g1 c2 hw hi.1⟩

theorem handleWS_death (g : Gateway) (hl : g.Live) (frames : List LoopEv)
    (hf : ∀ ev ∈ frames, ev.isFrame = true) (e : Err) (rest : List LoopEv)
    (c : Option Err) (attempts : List Attempt) :
    g.handleWS (frames ++ LoopEv.death (some e) :: rest) c attempts =
      ((g.ended.Reconnect c attempts).1,
        Call.Listen :: (frames.filterMap LoopEv.logged ++
          Call.ErrorLog (Err.wrap e "Pacemaker died, reconnecting") ::
            (g.ended.Reconnect c attempts).2.1),
        (g.ended.Reconnect c attempts).2.2) := by
  simp only [Gateway.handleWS, loopExit_Live_death g frames hf (some e) rest hl,
    Option.map_some', List.cons_append]

theorem Reconnect_ended (g : Gateway) (c : Option Err) (attempts : List Attempt) :
    g.ended.Reconnect c attempts =
      ((({ g.ended with waitGroup := none } : Gateway).redial attempts).1,
        [Call.Wait, Call.WSClose, Call.AfterClose c] ++
          (({ g.ended with waitGroup := none } : Gateway).redial attempts).2.1,
        (({ g.ended with waitGroup := none } : Gateway).redial attempts).2.2) := by
  have hc := Close_drained g.ended c rfl rfl
  simp only [Gateway.Reconnect, hc]

/-- C6 (amended). On a live connection the `AfterClose` hook receives the
result of `WS.Close()`, not the error that set off the teardown: an explicit
`Close` of a connection whose pacemaker is running calls `AfterClose` with
what `WS.Close()` returned (nil exactly when the transport closes cleanly);
and when the pacemaker dies with `e`, the wrapped `e` goes to `ErrorLog`,
after which the `Close` made by `Reconnect` calls `AfterClose` with what
`WS.Close()` returned. -/
theorem AfterClose_gets_close_result (g : Gateway) (hr : Reachable g)
    (hl : g.paceDeath = true) (c : Option Err) :
    (g.undelivered = none →
      (g.Close c).2.1 = [Call.Stop, Call.Wait, Call.WSClose, Call.AfterClose c] ∧
      (g.Close c).2.2 = Outcome.returned c) ∧
    ∀ (frames : List LoopEv) (e : Err) (rest : List LoopEv) (attempts : List Attempt),
      (∀ ev ∈ frames, ev.isFrame = true) →
      (g.handleWS (frames ++ LoopEv.death (some e) :: rest) c attempts).2.1 =
        Call.Listen :: (frames.filterMap LoopEv.logged ++
          [Call.ErrorLog (Err.wrap e "Pacemaker died, reconnecting"),
            Call.Wait, Call.WSClose, Call.AfterClose c] ++
          (({ g.ended with waitGroup := none } : Gateway).redial attempts).2.1) := by
  have hlive := live_of_reachable g hr hl
  constructor
  · intro hu
    obtain ⟨hd, ⟨p, hp, hs⟩, hw⟩ := hlive
    rw [Close_live g c p hd hp hs hw hu]
    exact ⟨rfl, rfl⟩
  · intro frames e rest attempts hf
    rw [handleWS_death g hlive frames hf e rest c attempts, Reconnect_ended g c attempts]
    simp

/-- Witness for C6: the pacemaker of a live connection dies with `ErrDead`
while the transport closes cleanly; `ErrorLog` gets the wrapped `ErrDead`
and `AfterClose` gets nil. -/
theorem AfterClose_gets_close_result_witness :
    Reachable liveGateway ∧ liveGateway.paceDeath = true ∧
    (liveGateway.Close none).2.1 =
      [Call.Stop, Call.Wait, Call.WSClose, Call.AfterClose none] ∧
    (liveGateway.handleWS [LoopEv.death (some ErrDead)] none [goodAttempt]).2.1 =
      Call.Listen ::
        ([Call.ErrorLog (Err.wrap ErrDead "Pacemaker died, reconnecting"),
          Call.Wait, Call.WSClose, Call.AfterClose none] ++
        (({ liveGateway.ended with waitGroup := none } : Gateway).redial [goodAttempt]).2.1) :=
  ⟨reachable_live, rfl,
   ((AfterClose_gets_close_result liveGateway reachable_live rfl none).1 rfl).1,
   (AfterClose_gets_close_result liveGateway reachable_live rfl none).2
     [] ErrDead [] [goodAttempt] (by decide)⟩

/-- C6 (as stated) fails: the pacemaker dies with `ErrDead` and the transport
closes cleanly, so the `Close` made by the reconnect calls `AfterClose(nil)`
and never `AfterClose(ErrDead)`; and an explicit `Close` of a healthy
connection whose transport fails to close calls `AfterClose` with that
error, not nil. -/
theorem AfterClose_counterexample :
    (liveGateway.handleWS [LoopEv.death (some ErrDead)] none [goodAttempt]).2.1.filterMap
        Call.afterClose = [none] ∧
    Call.AfterClose (some ErrDead) ∉
      (liveGateway.handleWS [LoopEv.death (some ErrDead)] none [goodAttempt]).2.1 ∧
    Call.ErrorLog (Err.wrap ErrDead "Pacemaker died, reconnecting") ∈
      (liveGateway.handleWS [LoopEv.death (some ErrDead)] none [goodAttempt]).2.1 ∧
    (liveGateway.Close (some (Err.msg "close failed"))).2.1.filterMap Call.afterClose =
      [some (Err.msg "close failed")] := by
  decide

/-- C8 (amended). A frame whose handling reports an error does not end the
dispatch loop: `eventLoop` passes the wrapped error to `ErrorLog` and goes on,
so with frames alone neither `eventLoop` nor `handleWS` returns and nothing
but `Listen` and `ErrorLog` is called. `eventLoop` returns only when
`paceDeath` delivers: nil for nil, the wrapped error otherwise; and on a live
connection `handleWS` then logs that error and calls `Reconnect`. -/
theorem eventLoop_frame_errors (g : Gateway) (frames : List LoopEv)
    (hf : ∀ ev ∈ frames, ev.isFrame = true) :
    g.eventLoop frames =
      (g, Call.Listen :: frames.filterMap LoopEv.logged, Outcome.pending) ∧
    (∀ c attempts,
      g.handleWS frames c attempts =
        (g, Call.Listen :: frames.filterMap LoopEv.logged, Outcome.pending)) ∧
    (∀ d rest, g.eventLoop (frames ++ LoopEv.death d :: rest) =
      ({ g with paceDeath := false }, Call.Listen :: frames.filterMap LoopEv.logged,
        Outcome.returned (d.map (fun e => Err.wrap e "Pacemaker died, reconnecting")))) ∧
    (g.Live → ∀ e rest c attempts,
      g.handleWS (frames ++ LoopEv.death (some e) :: rest) c attempts =
        ((g.ended.Reconnect c attempts).1,
          Call.Listen :: (frames.filterMap LoopEv.logged ++
            Call.ErrorLog (Err.wrap e "Pacemaker died, reconnecting") ::
              (g.ended.Reconnect c attempts).2.1),
          (g.ended.Reconnect c attempts).2.2)) := by
  have h0 := eventLoop_frames_only g frames hf
  refine ⟨h0, ?_, ?_, ?_⟩
  · intro c attempts
    simp [Gateway.handleWS, Gateway.loopExit, Gateway.finish, h0, Outcome.stuck]
  · intro d rest
    exact eventLoop_frames_death g frames hf d rest
  · intro hl e rest c attempts
    exact handleWS_death g hl frames hf e rest c attempts

/-- Witness for C8: a read error followed by an ordinary frame. -/
theorem eventLoop_frame_errors_witness :
    (∀ ev ∈ [LoopEv.frame (some (Err.msg "read failed")), LoopEv.frame none],
      ev.isFrame = true) ∧
    liveGateway.eventLoop [LoopEv.frame (some (Err.msg "read failed")), LoopEv.frame none] =
      (liveGateway,
        Call.Listen ::
          [LoopEv.frame (some (Err.msg "read failed")), LoopEv.frame none].filterMap
            LoopEv.logged,
        Outcome.pending) :=
  ⟨by decide,
   (eventLoop_frame_errors liveGateway
     [LoopEv.frame (some (Err.msg "read failed")), LoopEv.frame none] (by decide)).1⟩

/-- C8 (as stated) fails: a frame whose handling reports a read error is
logged and the loop goes on; when the pacemaker is then stopped `eventLoop`
returns nil, and `handleWS` has called `ErrorLog` once and never `Reconnect`
(no `Close`, no dial). -/
theorem eventLoop_counterexample :
    (liveGateway.eventLoop [LoopEv.frame (some (Err.msg "read failed"))]).2.2 =
      Outcome.pending ∧
    (liveGateway.eventLoop
      [LoopEv.frame (some (Err.msg "read failed")), LoopEv.death none]).2.2 =
      Outcome.returned none ∧
    (liveGateway.handleWS
      [LoopEv.frame (some (Err.msg "read failed")), LoopEv.death none] none [goodAttempt]).2.1 =
      [Call.Listen, Call.ErrorLog (Err.wrap (Err.msg "read failed") "WS handler error")] := by
  decide

theorem redial_retries (fails : List (Attempt × Err)) (ok : Attempt) (rest : List Attempt) :
    ∀ (sid : String) (g : Gateway), failsThen sid fails ok → g.paceDeath = false →
      g.SessionID = sid →
      (∃ g1 l, g.redial (fails.map Prod.fst ++ ok :: rest) = (g1, l, Outcome.returned ()) ∧
        g1.Live ∧ l.count Call.Dial = fails.length + 1 ∧
        l.filterMap Call.logged =
          fails.map (fun x => Err.wrap x.2 "Failed to open gateway")) ∧
      g.redial (fails.map Prod.fst ++ ok :: rest) = g.redial (fails.map Prod.fst ++ [ok]) ∧
      (g.redial (fails.map Prod.fst)).2.2 = Outcome.pending := by
  induction fails with
  | nil =>
    intro sid g hok hp hs
    simp only [failsThen] at hok
    obtain ⟨g2, l2, ho, hd, hlog, _, hcase⟩ := Open_spec g ok hp
    rw [hs, hok] at ho
    rw [hs] at hcase
    rcases hcase with ⟨hne, _⟩ | ⟨_, hlive, _⟩
    · exact absurd hok hne
    · simp only [List.map_nil, List.nil_append, List.length_nil]
      rw [redial_cons_ok g g2 ok rest l2 ho, redial_cons_ok g g2 ok [] l2 ho]
      exact ⟨⟨g2, l2, rfl, hlive, by simpa using hd, hlog⟩, rfl, rfl⟩
  | cons x fails ih =>
    intro sid g hf hp hs
    obtain ⟨hx, hrest⟩ := hf
    obtain ⟨g2, l2, ho, hd, hlog, hses, hcase⟩ := Open_spec g x.1 hp
    rw [hs, hx] at ho
    rw [hs] at hcase hses
    have hg2 : g2.paceDeath = false := by
      rcases hcase with ⟨_, hpd, _⟩ | ⟨hn, _⟩
      · exact hpd
      · rw [hx] at hn; cases hn
    obtain ⟨⟨g1, l, hr, hlive, hcount, hlogged⟩, hsame, hpend⟩ :=
      ih (openSession sid x.1) g2 hrest hg2 hses
    simp only [List.map_cons, List.cons_append, List.length_cons]
    rw [redial_cons_fail g g2 x.1 _ l2 x.2 ho, redial_cons_fail g g2 x.1 _ l2 x.2 ho,
      redial_cons_fail g g2 x.1 _ l2 x.2 ho]
    refine ⟨⟨g1, l2 ++ Call.ErrorLog (Err.wrap x.2 "Failed to open gateway") :: l, ?_, hlive,
      ?_, ?_⟩, by rw [hsame], hpend⟩
    · rw [hr]
    · simp only [List.count_append, List.count_cons, hd, hcount]
      simp; omega
    · simp only [List.filterMap_append, List.filterMap_cons, hlog, hlogged, Call.logged]
      simp

/-- C7. `Reconnect` calls `Close` once, drops its result, and then retries
`Open` until it succeeds: when the first `n` attempts fail and the next one
succeeds, `Reconnect` returns with a live connection after exactly `n + 1`
dials, having passed to `ErrorLog` exactly the `n` errors of the failed
attempts, wrapped and in order; what the script holds after the first
success is never used; and while every attempt fails it does not return.
The gateway is any reachable one in which no pacemaker exit is undelivered,
so that `Close` returns. -/
theorem Reconnect_retries (g : Gateway) (hr : Reachable g) (hu : g.undelivered = none)
    (c : Option Err) (fails : List (Attempt × Err)) (ok : Attempt) (rest : List Attempt)
    (hf : failsThen g.SessionID fails ok) :
    (∃ g1 tail,
      g.Reconnect c (fails.map Prod.fst ++ ok :: rest) =
        (g1, (g.Close c).2.1 ++ tail, Outcome.returned ()) ∧
      tail = ((g.Close c).1.redial (fails.map Prod.fst ++ ok :: rest)).2.1 ∧
      (g.Close c).2.1.countP Call.isAfterClose = 1 ∧
      g1.Live ∧
      ((g.Close c).2.1 ++ tail).count Call.Dial = fails.length + 1 ∧
      ((g.Close c).2.1 ++ tail).filterMap Call.logged =
        fails.map (fun x => Err.wrap x.2 "Failed to open gateway")) ∧
    g.Reconnect c (fails.map Prod.fst ++ ok :: rest) =
      g.Reconnect c (fails.map Prod.fst ++ [ok]) ∧
    (g.Reconnect c (fails.map Prod.fst)).2.2 = Outcome.pending := by
  obtain ⟨g2, l2, r2, hc, hi, _, hsid, hn, hdial, hlogged⟩ := Close_returns g c hr.inv hu
  obtain ⟨⟨g1, l, hred, hlive, hcount, hlog⟩, hsame, hpend⟩ :=
    redial_retries fails ok rest g.SessionID g2 hf hi.1 hsid
  refine ⟨⟨g1, l, ?_, ?_, ?_, hlive, ?_, ?_⟩, ?_, ?_⟩
  · simp only [Gateway.Reconnect, hc, hred]
  · rw [hc]; simp only [hred]
  · rw [hc]; exact hn
  · rw [hc]; simp only [List.count_append, hdial, hcount]; omega
  · rw [hc]; simp only [List.filterMap_append, hlogged, hlog, List.nil_append]
  · simp only [Gateway.Reconnect, hc, hsame]
  · simp only [Gateway.Reconnect, hc, hpend]

/-- Witness for C7: on a live connection with session id `abc`, a failed
dial, a failed Hello and a resume answered with Invalid-session are followed
by a successful Identify. -/
theorem Reconnect_retries_witness :
    Reachable liveGateway ∧ liveGateway.undelivered = none ∧
    failsThen liveGateway.SessionID threeFailures goodAttempt ∧
    (liveGateway.Reconnect none (threeFailures.map Prod.fst)).2.2 = Outcome.pending :=
  ⟨reachable_live, rfl, by decide,
   (Reconnect_retries liveGateway reachable_live rfl none threeFailures goodAttempt [badDial]
     (by decide)).2.2⟩

end Arikawa
